import Mathlib

/-!
Verification of the poll lifecycle engine of `the-all-thing-project`
(Python backend under `src/backend/app/`) against its natural-language
specification.  Each Python function relevant to the claims is embedded
as a Lean definition that mirrors the source line by line; machine
integers are `Nat`/`Int`, Python `None`-able values are `Option`,
fallible code returns `Except`.
-/

namespace AllThing

/-! ## Tally engine: `app/tally.py`, `irvTally`

The Python loop iterates over `remaining` (a `set` of option ids).  We
represent the set as a duplicate-free list (`List.dedup` of the input,
matching `set(optionIds)` up to iteration order).  No behaviour of
`irvTally` depends on set iteration order: at most one option can hold a
strict majority, the eliminated option is produced by `sorted(...)[0]`
(order independent), and the `totals` dict is keyed by exactly the
members of `remaining`.

The `while True` loop is embedded with an explicit fuel argument that is
structurally decreasing; `irvTally` supplies fuel `|remaining| + 1`,
which is proved sufficient below (`irvGoF_fuel_stable`): every loop
iteration that recurses removes one member from `remaining`.
-/

/-- One entry of the `rounds` list: `{"round": .., "totals": .., "eliminated": .., "exhausted": ..}`.
`totals` is the per-option tally snapshot, keyed by the active options of the round. -/
structure RoundRec where
  round : Nat
  totals : List (String × Nat)
  eliminated : Option String
  exhausted : Nat
deriving Repr, DecidableEq

/-- Result of `irvTally`: `{"winnerOptionId": .., "rounds": ..}`. -/
structure IrvResult where
  winnerOptionId : Option String
  rounds : List RoundRec
deriving Repr, DecidableEq

/-- `for optionId in ranking: if optionId in remaining: selected = optionId; break` -/
def selectedOption (remaining : List String) (ranking : List String) : Option String :=
  ranking.find? (fun o => remaining.contains o)

/-- `totals[o]` after the ballot loop: number of ballots whose highest-ranked
active option is `o`. -/
def totalsFor (ballots : List (List String)) (remaining : List String) (o : String) : Nat :=
  ballots.countP (fun b => selectedOption remaining b == some o)

/-- `exhausted`: ballots with no active option left in their ranking. -/
def exhaustedCount (ballots : List (List String)) (remaining : List String) : Nat :=
  ballots.countP (fun b => (selectedOption remaining b).isNone)

/-- `activeVotes = sum(totals[o] for o in remaining)` -/
def activeVotes (ballots : List (List String)) (remaining : List String) : Nat :=
  (remaining.map (totalsFor ballots remaining)).sum

/-- The `totals` dict recorded in a round: one entry per active option
(`totals.setdefault(optionId, 0)` guarantees zero-tallied options appear). -/
def roundTotals (ballots : List (List String)) (remaining : List String) : List (String × Nat) :=
  remaining.map (fun o => (o, totalsFor ballots remaining o))

/-- `min(totals[o] for o in remaining)` (0 on the empty list, unreachable there). -/
def natMinD : List Nat → Nat
  | [] => 0
  | x :: xs => xs.foldl min x

/-- Python `Char` comparison: by Unicode code point. -/
def charLtB (a b : Char) : Bool := a.val.toNat < b.val.toNat

/-- Python string `<`: lexicographic comparison of Unicode code points. -/
def strLtB : List Char → List Char → Bool
  | [], [] => false
  | [], _ :: _ => true
  | _ :: _, [] => false
  | a :: as, b :: bs => if a = b then strLtB as bs else charLtB a b

/-- Python string `<` on `String`. -/
def strLt (a b : String) : Bool := strLtB a.data b.data

/-- Python string `<=` on `String`. -/
def strLe (a b : String) : Bool := a == b || strLtB a.data b.data

/-- Binary minimum for Python string order (first argument kept on equality,
as in `sorted`'s stability; equal strings are identical anyway). -/
def strMin (a b : String) : String := if strLt b a then b else a

/-- `sorted(candidates)[0]`: the alphabetically least member
(empty-list default "" is unreachable at the call site). -/
def alphaMinD : List String → String
  | [] => ""
  | x :: xs => xs.foldl strMin x

/-- Lines 64-126: once exactly one active option remains, re-tally all
ballots with only that option active and recompute the active-vote
total before declaring it the winner.  `finalTotals[lastCandidate] >
activeVotes / 2` (Python real division) on naturals is
`activeVotes < 2 * finalTotals[lastCandidate]`. -/
def finalPhase (ballots : List (List String)) (lastCandidate : String)
    (roundNumber : Nat) (rounds : List RoundRec) : IrvResult :=
  if activeVotes ballots [lastCandidate] = 0 then
    { winnerOptionId := none,
      rounds := rounds ++ [⟨roundNumber, roundTotals ballots [lastCandidate], none,
                            exhaustedCount ballots [lastCandidate]⟩] }
  else if activeVotes ballots [lastCandidate]
      < 2 * totalsFor ballots [lastCandidate] lastCandidate then
    { winnerOptionId := some lastCandidate,
      rounds := rounds ++ [⟨roundNumber, roundTotals ballots [lastCandidate], none,
                            exhaustedCount ballots [lastCandidate]⟩] }
  else
    { winnerOptionId := none,
      rounds := rounds ++ [⟨roundNumber, roundTotals ballots [lastCandidate], none,
                            exhaustedCount ballots [lastCandidate]⟩] }

/-- Lines 50-53: `sorted([o for o in remaining if totals[o] == minVotes])[0]`,
with `minVotes = min(totals[o] for o in remaining)`. -/
def eliminatedChoice (ballots : List (List String)) (remaining : List String) : String :=
  alphaMinD (remaining.filter (fun o =>
    decide (totalsFor ballots remaining o = natMinD (remaining.map (totalsFor ballots remaining)))))

/-- The `while True` loop of `irvTally` (lines 9-126), fuel-indexed.
`totals[optionId] > activeVotes / 2` (Python real division) on naturals is
`activeVotes < 2 * totals[optionId]`. -/
def irvGoF (ballots : List (List String)) :
    Nat → List String → Nat → List RoundRec → IrvResult
  | 0, _, _, rounds => { winnerOptionId := none, rounds := rounds }
  | fuel + 1, remaining, roundNumber, rounds =>
    if activeVotes ballots remaining = 0 then
      { winnerOptionId := none,
        rounds := rounds ++ [⟨roundNumber, roundTotals ballots remaining, none,
                              exhaustedCount ballots remaining⟩] }
    else
      match remaining.find? (fun o =>
          decide (activeVotes ballots remaining < 2 * totalsFor ballots remaining o)) with
      | some w =>
        { winnerOptionId := some w,
          rounds := rounds ++ [⟨roundNumber, roundTotals ballots remaining, none,
                                exhaustedCount ballots remaining⟩] }
      | none =>
        match remaining.erase (eliminatedChoice ballots remaining) with
        | [last] =>
          finalPhase ballots last (roundNumber + 1)
            (rounds ++ [⟨roundNumber, roundTotals ballots remaining,
                         some (eliminatedChoice ballots remaining),
                         exhaustedCount ballots remaining⟩])
        | remaining2 =>
          irvGoF ballots fuel remaining2 (roundNumber + 1)
            (rounds ++ [⟨roundNumber, roundTotals ballots remaining,
                         some (eliminatedChoice ballots remaining),
                         exhaustedCount ballots remaining⟩])

/-- `irvTally(ballots, optionIds)` (lines 4-126). -/
def irvTally (ballots : List (List String)) (optionIds : List String) : IrvResult :=
  irvGoF ballots (optionIds.dedup.length + 1) optionIds.dedup 1 []

/-- Sum of the tallies recorded in a round. -/
def sumTotals (rec : RoundRec) : Nat := (rec.totals.map Prod.snd).sum

/-- Everything that holds of a round record emitted by `irvTally`: its
`totals`/`exhausted` snapshot the true tallies of a duplicate-free active
set drawn from the (deduplicated) input options; an eliminated option is
recorded only in a round with active votes and no strict majority, and is
then an active option of minimum tally, alphabetically least among ties;
a round with no elimination is terminal (all ballots exhausted, or some
active option holds a strict majority). -/
def RoundOk (ballots : List (List String)) (opts : List String) (rec : RoundRec) : Prop :=
  ∃ A : List String, A.Nodup ∧ List.Sublist A opts ∧
    rec.totals = roundTotals ballots A ∧
    rec.exhausted = exhaustedCount ballots A ∧
    (∀ e, rec.eliminated = some e →
      activeVotes ballots A ≠ 0 ∧
      (∀ o ∈ A, ¬ activeVotes ballots A < 2 * totalsFor ballots A o) ∧
      e ∈ A ∧
      (∀ o ∈ A, totalsFor ballots A e ≤ totalsFor ballots A o) ∧
      (∀ o ∈ A, totalsFor ballots A o = totalsFor ballots A e → strLe e o = true)) ∧
    (rec.eliminated = none →
      activeVotes ballots A = 0 ∨ ∃ w ∈ A, activeVotes ballots A < 2 * totalsFor ballots A w)

/-! ## Results and snapshot services: `app/resultsService.py`, `app/snapshotService.py`

Relational rows are embedded as structures carrying the columns the
services read; dates are day numbers (`Int`).  A ballot row carries its
rankings inline (the `voteRankings` rows for that ballot, ordered by
rank, as produced by the `ORDER BY ballotId, rank` + group-by of
`buildRankedResults`; `irvTally`'s output is invariant under ballot
order, so the grouping order is immaterial). -/

/-- Python exceptions that the embedded services can raise. -/
inductive PyErr
  | typeError
  | integrityError
deriving Repr, DecidableEq

/-- `pollInstances` row, the columns read by the services
(`models.py` lines 176-216; note there is no close-date column there). -/
structure PollInstanceRow where
  id : String
  pollDate : Int
  status : String
  pollType : String
  maxRank : Option Nat
  options : List (String × Nat)
deriving Repr, DecidableEq

/-- `voteBallots` row with its `voteRankings` (option ids by ascending rank). -/
structure VoteBallotRow where
  id : String
  instanceId : String
  voterTokenHash : String
  firstChoiceOptionId : Option String
  rankings : List String
deriving Repr, DecidableEq

/-- The results payload dict of `buildResults`; a field holds `none` when the
corresponding key is absent from the Python dict (`dict.get` yields `None`).
`buildSingleResults` sets only `totalVotes`; `buildRankedResults` sets only
`totalBallots`, `winnerOptionId` and `rounds`. -/
structure ResultsPayload where
  found : Bool
  pollId : String
  pollType : Option String := none
  totalVotes : Option Int := none
  totalBallots : Option Int := none
  winnerOptionId : Option String := none
  rounds : List RoundRec := []
deriving Repr, DecidableEq

/-- `pollResultSnapshots` row (convenience columns plus the stored payload). -/
structure SnapshotRow where
  instanceId : String
  resultsJson : ResultsPayload
  totalVotes : Option Int
  totalBallots : Option Int
  winnerOptionId : Option String
deriving Repr, DecidableEq

/-- The database state visible to the results/snapshot/close services. -/
structure TallyDb where
  instances : List PollInstanceRow
  ballots : List VoteBallotRow
  snapshots : List SnapshotRow
deriving Repr, DecidableEq

/-- Stable insertion into a sort-order-sorted list (`sorted(..., key=sortOrder)`). -/
def insertByOrder (x : String × Nat) : List (String × Nat) → List (String × Nat)
  | [] => [x]
  | y :: ys => if y.2 ≤ x.2 then y :: insertByOrder x ys else x :: y :: ys

/-- `sorted(options, key=lambda o: o.sortOrder)` (stable sort). -/
def sortByOrder (l : List (String × Nat)) : List (String × Nat) :=
  l.foldr insertByOrder []

/-- `select(PollInstance).where(PollInstance.id == pollId) ... scalar_one_or_none()` -/
def findInstance (db : TallyDb) (pollId : String) : Option PollInstanceRow :=
  db.instances.find? (fun i => i.id == pollId)

/-- `buildSingleResults` lines 70-76: ballots grouped by first choice; only
first choices that are option ids of this instance are counted. -/
def singleTotalVotes (db : TallyDb) (instanceId : String) (optionIds : List String) : Int :=
  ((db.ballots.filter (fun b => b.instanceId == instanceId)).countP (fun b =>
    match b.firstChoiceOptionId with
    | some oid => optionIds.contains oid
    | none => false) : Nat)

/-- `buildRankedResults` lines 105-116: the rankings of this instance's
ballots, one ordered option-id list per ballot that has any rankings. -/
def rankedBallots (db : TallyDb) (instanceId : String) : List (List String) :=
  ((db.ballots.filter (fun b => b.instanceId == instanceId)).filter
    (fun b => !b.rankings.isEmpty)).map (fun b => b.rankings)

/-- `buildResults(db, pollId)` (resultsService.py lines 15-54). -/
def buildResults (db : TallyDb) (pollId : String) : ResultsPayload :=
  match findInstance db pollId with
  | none => { found := false, pollId := pollId }
  | some inst =>
    if inst.pollType = "SINGLE" then
      { found := true, pollId := inst.id, pollType := some inst.pollType,
        totalVotes := some (singleTotalVotes db inst.id
          ((sortByOrder inst.options).map Prod.fst)) }
    else if inst.pollType = "RANKED" then
      { found := true, pollId := inst.id, pollType := some inst.pollType,
        totalBallots := some ((rankedBallots db inst.id).length : Nat),
        winnerOptionId := (irvTally (rankedBallots db inst.id)
          ((sortByOrder inst.options).map Prod.fst)).winnerOptionId,
        rounds := (irvTally (rankedBallots db inst.id)
          ((sortByOrder inst.options).map Prod.fst)).rounds }
    else
      { found := true, pollId := inst.id, pollType := some inst.pollType }

/-- `extractSnapshotFields` (snapshotService.py lines 18-28). -/
structure SnapshotFields where
  totalVotes : Option Int
  totalBallots : Option Int
  winnerOptionId : Option String
deriving Repr, DecidableEq

def extractSnapshotFields (results : ResultsPayload) : SnapshotFields :=
  { totalVotes := results.totalVotes, totalBallots := results.totalBallots,
    winnerOptionId := results.winnerOptionId }

/-- Python `x < y` where `x` may be `None`: `None < int` raises `TypeError`. -/
def pyLtOptInt : Option Int → Int → Except PyErr Bool
  | none, _ => .error .typeError
  | some a, b => .ok (decide (a < b))

/-- The `minVotes: int = 10` default of `upsertResultSnapshot`. -/
def defaultMinVotes : Int := 10

/-- Lines 46-52: delete any existing snapshot row for the instance. -/
def deleteSnapshotRows (db : TallyDb) (pollId : String) : TallyDb :=
  { db with snapshots := db.snapshots.filter (fun s => s.instanceId != pollId) }

/-- The snapshot row that lines 58-72 insert or overwrite. -/
def freshSnapshotRow (db : TallyDb) (pollId : String) : SnapshotRow :=
  ⟨pollId, buildResults db pollId,
   (extractSnapshotFields (buildResults db pollId)).totalVotes,
   (extractSnapshotFields (buildResults db pollId)).totalBallots,
   (extractSnapshotFields (buildResults db pollId)).winnerOptionId⟩

/-- Lines 54-72: insert a new snapshot row, or refresh the existing one. -/
def writeSnapshotRow (db : TallyDb) (pollId : String) : TallyDb :=
  if (db.snapshots.find? (fun s => s.instanceId == pollId)).isNone then
    { db with snapshots := db.snapshots ++ [freshSnapshotRow db pollId] }
  else
    { db with snapshots := db.snapshots.map (fun s =>
        if s.instanceId == pollId then freshSnapshotRow db pollId else s) }

/-- `upsertResultSnapshot(db, pollId, minVotes)` (snapshotService.py lines
31-75).  Returns the bool result and the updated snapshot table; raises
`TypeError` at the `fields["totalBallots"] < minVotes` comparison whenever
the payload has no `totalBallots` key (every found SINGLE or
unknown-poll-type instance, since `buildSingleResults` emits only
`totalVotes`). -/
def upsertResultSnapshot (db : TallyDb) (pollId : String) (minVotes : Int) :
    Except PyErr (Bool × TallyDb) :=
  if (buildResults db pollId).found = false then .ok (false, db)
  else
    match pyLtOptInt (extractSnapshotFields (buildResults db pollId)).totalBallots minVotes with
    | .error e => .error e
    | .ok true => .ok (false, deleteSnapshotRows db pollId)
    | .ok false => .ok (true, writeSnapshotRow db pollId)

/-! ## Close service: `app/closeService.py`, `closeAndSnapshotForDate` -/

/-- Writes observable inside the close transaction, in program order. -/
inductive CloseEv
  | snapWrite (instanceId : String)
  | statusFlip (instanceId : String)
deriving Repr, DecidableEq

def CloseEv.isSnap : CloseEv → Bool
  | .snapWrite _ => true
  | .statusFlip _ => false

/-- The OPEN instances whose open date equals the target date (lines 56-60). -/
def openInstancesAt (db : TallyDb) (pollDate : Int) : List PollInstanceRow :=
  db.instances.filter (fun i => i.pollDate == pollDate && i.status == "OPEN")

/-- Lines 62-66: the snapshot pass over the selected instances; emits a
`snapWrite` event for every snapshot actually written/refreshed. -/
def snapshotLoop (minVotes : Int) :
    List PollInstanceRow → TallyDb → Except PyErr (Nat × List CloseEv × TallyDb)
  | [], db => .ok (0, [], db)
  | inst :: rest, db =>
    match upsertResultSnapshot db inst.id minVotes with
    | .error e => .error e
    | .ok (ok, db2) =>
      match snapshotLoop minVotes rest db2 with
      | .error e => .error e
      | .ok (snapCount, evs, db3) =>
        .ok ((if ok then 1 else 0) + snapCount,
             (if ok then [CloseEv.snapWrite inst.id] else []) ++ evs, db3)

structure CloseResult where
  snapCount : Nat
  closedCount : Nat
deriving Repr, DecidableEq

/-- Lines 68-73: the bulk `UPDATE ... SET status = CLOSED` applied to one row. -/
def closeOpenAt (i : PollInstanceRow) (pollDate : Int) : PollInstanceRow :=
  if i.pollDate == pollDate && i.status == "OPEN" then { i with status := "CLOSED" } else i

/-- The body of the `async with db.begin():` block (lines 55-75): snapshot
pass first, then the bulk status update, whose row count is `closedCount`. -/
def closeAndSnapshotBody (db : TallyDb) (pollDate : Int) :
    Except PyErr (CloseResult × List CloseEv × TallyDb) :=
  match snapshotLoop defaultMinVotes (openInstancesAt db pollDate) db with
  | .error e => .error e
  | .ok (snapCount, evs, db2) =>
    .ok (⟨snapCount, (openInstancesAt db2 pollDate).length⟩,
         evs ++ (openInstancesAt db2 pollDate).map (fun i => CloseEv.statusFlip i.id),
         { db2 with instances := db2.instances.map (fun i => closeOpenAt i pollDate) })

/-- `closeAndSnapshotForDate(db, pollDate)` (lines 53-87).  The
`async with db.begin()` transaction commits the body's writes on success;
on any exception it rolls back and re-raises, so an error publishes no
events and leaves the store unchanged. -/
def closeAndSnapshotForDate (db : TallyDb) (pollDate : Int) :
    Except PyErr CloseResult × List CloseEv × TallyDb :=
  match closeAndSnapshotBody db pollDate with
  | .error e => (.error e, [], db)
  | .ok (res, evs, db2) => (.ok res, evs, db2)

def c4Db : TallyDb :=
  { instances := [⟨"p4", 3, "OPEN", "RANKED", none, [("o1", 1), ("o2", 2)]⟩],
    ballots := [], snapshots := [] }

def c4ClosedDb : TallyDb :=
  { instances := [⟨"p4", 3, "CLOSED", "RANKED", none, [("o1", 1), ("o2", 2)]⟩],
    ballots := [], snapshots := [] }

def c5SingleDb : TallyDb :=
  { instances := [⟨"p1", 0, "OPEN", "SINGLE", none, [("o1", 1), ("o2", 2)]⟩],
    ballots := [], snapshots := [] }

def c5RankedDb : TallyDb :=
  { instances := [⟨"p2", 0, "OPEN", "RANKED", none, [("o1", 1), ("o2", 2)]⟩],
    ballots := [], snapshots := [] }

/-! ## Vote admission: `app/publicRoutes.py` `submitVote` + `app/abuse.py`

The redis cache is `Option RedisState`: `none` models "cache unavailable",
in which every `safeRedis*` call raises and the `abuse.py` wrappers apply
their fail-open defaults.  The rate-limit window bucket
(`int(time.time() // windowSeconds)`) is passed in as `bucket`; two calls
within the same 24-hour window share it.  The external Turnstile verifier's
verdict is passed as `turnstileResult` (`none`: no token supplied). -/

structure RedisState where
  rlCounts : List (String × Nat)
  idemKeys : List String
  votedKeys : List String
  votedIpKeys : List String
deriving Repr, DecidableEq

structure VoteDb where
  redis : Option RedisState
  instances : List PollInstanceRow
  ballots : List VoteBallotRow
deriving Repr, DecidableEq

/-- The observable responses of `submitVote`; `Except.error` is reserved for
exceptions that escape the handler uncaught. -/
inductive VoteOutcome
  | accepted          -- {"ok": True}
  | acceptedDeduped   -- {"ok": True, "deduped": True}
  | botCheckFailed    -- 403 Bot verification failed
  | rateLimited       -- 429 Too many attempts
  | alreadyVoted      -- 409 Already voted
  | alreadyVotedIp    -- 409 Already voted from this network
  | pollNotFound      -- 404 Poll not found
  | pollClosed        -- 409 Poll is closed
  | misconfigured     -- 500 options misconfigured / unknown pollType
  | invalidChoices    -- 422 invalid rankedChoices
deriving Repr, DecidableEq

def assocGet (l : List (String × Nat)) (k : String) : Option Nat :=
  (l.find? (fun p => p.1 == k)).map Prod.snd

/-- `redis.incr key`: create at 1 or increment, returning the new value. -/
def assocIncr (l : List (String × Nat)) (k : String) : Nat × List (String × Nat) :=
  match assocGet l k with
  | none => (1, (k, 1) :: l)
  | some n => (n + 1, l.map (fun p => if p.1 == k then (p.1, n + 1) else p))

def rlKey (pollId ipHash : String) (bucket : Nat) : String :=
  "rl:vote:" ++ pollId ++ ":" ++ ipHash ++ ":" ++ toString bucket

def idemKeyStr (pollId voterHash k : String) : String :=
  "idem:" ++ pollId ++ ":" ++ voterHash ++ ":" ++ k

def votedKey (pollId voterHash : String) : String :=
  "voted:" ++ pollId ++ ":" ++ voterHash

def votedIpKey (pollId ipHash : String) : String :=
  "voted:ip:" ++ pollId ++ ":" ++ ipHash

/-- Step 8 (lines 246-257): `markVoted` / `markVotedByIp`, silently skipped
when the cache is down. -/
def markVotedKeys (db : VoteDb) (pollId voterHash ipHash : String) : VoteDb :=
  match db.redis with
  | none => db
  | some r =>
    { db with redis := some ⟨r.rlCounts, r.idemKeys,
        r.votedKeys ++ [votedKey pollId voterHash],
        r.votedIpKeys ++ [votedIpKey pollId ipHash]⟩ }

/-- `RANKED` choice-count validation (lines 192-196). -/
def rankedCountInvalid (maxRank : Option Nat) (n : Nat) : Bool :=
  (match maxRank with
   | some m => decide (n > m)
   | none => false) || decide (n < 2)

/-- Step 7 (lines 200-244): insert the Ballot and Rankings.  `db.add(ballot);
await db.flush()` executes the INSERT at line 227, so a violation of the
unique `(instanceId, voterTokenHash)` constraint raises `IntegrityError`
there — OUTSIDE the `try/except IntegrityError` that wraps only
`db.commit()` (lines 237-244) — and propagates uncaught.  The commit inside
the `try` cannot itself hit that constraint (the ballot row was already
flushed and the fresh ranking rows cannot conflict), so the
`except IntegrityError: ... 409 "Already voted"` translation is dead. -/
def insertBallot (db : VoteDb) (inst : PollInstanceRow) (pollId voterHash ipHash : String)
    (rankedChoices : List String) (newBallotId : String) :
    Except PyErr (VoteOutcome × VoteDb) :=
  if db.ballots.any (fun b => b.instanceId == inst.id && b.voterTokenHash == voterHash) then
    .error .integrityError
  else
    .ok (.accepted, markVotedKeys
      { db with ballots := db.ballots
          ++ [⟨newBallotId, inst.id, voterHash, rankedChoices.head?, rankedChoices⟩] }
      pollId voterHash ipHash)

/-- Steps 6-7 (lines 160-244): load the instance and validate the payload. -/
def votePersist (db : VoteDb) (pollId voterHash ipHash : String)
    (rankedChoices : List String) (newBallotId : String) :
    Except PyErr (VoteOutcome × VoteDb) :=
  match db.instances.find? (fun i => i.id == pollId) with
  | none => .ok (.pollNotFound, db)
  | some inst =>
    if inst.status ≠ "OPEN" then .ok (.pollClosed, db)
    else if ((inst.options.map Prod.fst).dedup).length < 2 then .ok (.misconfigured, db)
    else if rankedChoices.dedup.length ≠ rankedChoices.length then .ok (.invalidChoices, db)
    else if ¬ rankedChoices.all (fun oid => (inst.options.map Prod.fst).contains oid) then
      .ok (.invalidChoices, db)
    else if inst.pollType = "SINGLE" then
      if rankedChoices.length ≠ 1 then .ok (.invalidChoices, db)
      else insertBallot db inst pollId voterHash ipHash rankedChoices newBallotId
    else if inst.pollType = "RANKED" then
      if rankedCountInvalid inst.maxRank rankedChoices.length then .ok (.invalidChoices, db)
      else insertBallot db inst pollId voterHash ipHash rankedChoices newBallotId
    else .ok (.misconfigured, db)

/-- Step 5 (lines 151-158): cache fast-path duplicate checks; `hasVoted` and
`hasVotedByIp` return `False` when the cache is down. -/
def voteFastPath (db : VoteDb) (pollId voterHash ipHash : String)
    (rankedChoices : List String) (newBallotId : String) :
    Except PyErr (VoteOutcome × VoteDb) :=
  match db.redis with
  | some r =>
    if r.votedKeys.contains (votedKey pollId voterHash) then .ok (.alreadyVoted, db)
    else if r.votedIpKeys.contains (votedIpKey pollId ipHash) then .ok (.alreadyVotedIp, db)
    else votePersist db pollId voterHash ipHash rankedChoices newBallotId
  | none => votePersist db pollId voterHash ipHash rankedChoices newBallotId

/-- Step 4 (lines 144-149): optional idempotency short-circuit;
`setIdempotency` returns `True` (proceed) when the cache is down. -/
def voteIdem (db : VoteDb) (pollId voterHash ipHash : String)
    (rankedChoices : List String) (idempotencyKey : Option String)
    (newBallotId : String) : Except PyErr (VoteOutcome × VoteDb) :=
  match idempotencyKey with
  | none => voteFastPath db pollId voterHash ipHash rankedChoices newBallotId
  | some k =>
    match db.redis with
    | none => voteFastPath db pollId voterHash ipHash rankedChoices newBallotId
    | some r =>
      if r.idemKeys.contains (idemKeyStr pollId voterHash k) then .ok (.acceptedDeduped, db)
      else voteFastPath
        { db with redis := some ⟨r.rlCounts, r.idemKeys ++ [idemKeyStr pollId voterHash k],
            r.votedKeys, r.votedIpKeys⟩ }
        pollId voterHash ipHash rankedChoices newBallotId

/-- `submitVote` (publicRoutes.py lines 107-262): turnstile check, then the
per-(poll, ip) rate limit with `limit=1` per 24-hour bucket (fail-open when
the cache is down), then idempotency, fast-path duplicate checks,
validation and the transactional insert. -/
def submitVote (db : VoteDb) (pollId voterHash ipHash : String) (bucket : Nat)
    (rankedChoices : List String) (idempotencyKey : Option String)
    (turnstileResult : Option Bool) (newBallotId : String) :
    Except PyErr (VoteOutcome × VoteDb) :=
  if turnstileResult = some false then .ok (.botCheckFailed, db)
  else
    match db.redis with
    | none => voteIdem db pollId voterHash ipHash rankedChoices idempotencyKey newBallotId
    | some r =>
      if (assocIncr r.rlCounts (rlKey pollId ipHash bucket)).1 ≤ 1 then
        voteIdem
          { db with redis := some ⟨(assocIncr r.rlCounts (rlKey pollId ipHash bucket)).2,
              r.idemKeys, r.votedKeys, r.votedIpKeys⟩ }
          pollId voterHash ipHash rankedChoices idempotencyKey newBallotId
      else
        .ok (.rateLimited,
          { db with redis := some ⟨(assocIncr r.rlCounts (rlKey pollId ipHash bucket)).2,
              r.idemKeys, r.votedKeys, r.votedIpKeys⟩ })

def c6Inst : PollInstanceRow := ⟨"p6", 0, "OPEN", "RANKED", none, [("o1", 1), ("o2", 2)]⟩

def c6CacheUpDb : VoteDb :=
  { redis := some ⟨[], [], [], []⟩, instances := [c6Inst], ballots := [] }

def c6CacheDownDb : VoteDb :=
  { redis := none, instances := [c6Inst], ballots := [] }

/-! ## Rollover engine: `app/rollover.py`, `ensureInstancesForDate`

Row types mirror `models.py`: `PollTemplate` has NO duration column and
`PollInstance` has NO close-date column there; the `closeDate` database
column added by migration `d4e5f6a7b8c9` is therefore carried on the
instance row as `Option Int` and is left `none` by every ORM insert
(`rollover.py` lines 85-96 set only `pollDate`). -/

structure PollTemplateRow where
  id : String
  categoryId : String
  key : String
  title : String
  question : Option String
  pollType : String
  maxRank : Option Nat
  audience : String
  isActive : Bool
  defaultOptions : List (String × Nat)
deriving Repr, DecidableEq

structure PollPlanRow where
  id : String
  templateId : String
  pollDate : Int
  isEnabled : Bool
  questionOverride : Option String
  options : List (String × Nat)
deriving Repr, DecidableEq

/-- `pollInstances` row at the database level: the `closeDate` column exists
(migration `d4e5f6a7b8c9` added it, backfilled `= pollDate`, then made it
NOT NULL) but the ORM model does not map it, so inserted rows carry no
value for it. -/
structure InstanceTableRow where
  id : String
  templateId : String
  categoryId : String
  pollDate : Int
  closeDate : Option Int
  title : String
  question : Option String
  pollType : String
  maxRank : Option Nat
  audience : String
  status : String
  options : List (String × Nat)
deriving Repr, DecidableEq

structure RolloverDb where
  templates : List PollTemplateRow
  plans : List PollPlanRow
  instances : List InstanceTableRow
  nextId : Nat
deriving Repr, DecidableEq

/-- Lines 35-39: all active templates (with their default options). -/
def activeTemplates (db : RolloverDb) : List PollTemplateRow :=
  db.templates.filter (fun t => t.isActive)

def activeTemplateIds (db : RolloverDb) : List String :=
  (activeTemplates db).map (fun t => t.id)

/-- Lines 47-52: the plans matching `(templateIds, pollDate)`. -/
def plansForDate (db : RolloverDb) (d : Int) : List PollPlanRow :=
  db.plans.filter (fun p => (activeTemplateIds db).contains p.templateId && p.pollDate == d)

/-- Lines 57-63: template ids that already have an instance for the date. -/
def existingTemplateIdsAt (db : RolloverDb) (d : Int) : List String :=
  (db.instances.filter (fun i =>
    (activeTemplateIds db).contains i.templateId && i.pollDate == d)).map
      (fun i => i.templateId)

/-- `planByTemplateId = {p.templateId: p for p in plans}`: a later plan in
the list overwrites an earlier one with the same key. -/
def planFor (plans : List PollPlanRow) (templateId : String) : Option PollPlanRow :=
  (plans.filter (fun p => p.templateId == templateId)).getLast?

/-- Lines 74-76: `plan is not None and plan.isEnabled is False`. -/
def planDisabled : Option PollPlanRow → Bool
  | some p => !p.isEnabled
  | none => false

/-- Lines 78-80: `if plan is not None and plan.questionOverride:` — the
override applies only when truthy (non-`None`, non-empty). -/
def resolveQuestion (t : PollTemplateRow) (plan : Option PollPlanRow) : Option String :=
  match plan with
  | some p =>
    match p.questionOverride with
    | some q => if q = "" then t.question else some q
    | none => t.question
  | none => t.question

/-- `chooseInstanceOptions(template, plan)` (lines 113-127). -/
def chooseInstanceOptions (t : PollTemplateRow) (plan : Option PollPlanRow) :
    List (String × Nat) :=
  match plan with
  | some p => if !p.options.isEmpty then sortByOrder p.options else sortByOrder t.defaultOptions
  | none => sortByOrder t.defaultOptions

/-- The `PollInstance(...)` constructed at lines 85-96 (plus its option rows):
no close date is computed or stored anywhere. -/
def newInstanceRow (t : PollTemplateRow) (plan : Option PollPlanRow) (d : Int) (n : Nat) :
    InstanceTableRow :=
  ⟨"inst-" ++ toString n, t.id, t.categoryId, d, none, t.title, resolveQuestion t plan,
   t.pollType, t.maxRank, t.audience, "OPEN", chooseInstanceOptions t plan⟩

/-- Lines 68-107: the creation loop.  The skip set and plan map are computed
once, before the loop. -/
def rolloverLoop (d : Int) (plans : List PollPlanRow) (existingIds : List String) :
    List PollTemplateRow → Nat → Nat × List InstanceTableRow × Nat
  | [], n => (0, [], n)
  | t :: rest, n =>
    if existingIds.contains t.id then rolloverLoop d plans existingIds rest n
    else if planDisabled (planFor plans t.id) then rolloverLoop d plans existingIds rest n
    else
      match rolloverLoop d plans existingIds rest (n + 1) with
      | (c, rows, n2) => (c + 1, newInstanceRow t (planFor plans t.id) d n :: rows, n2)

/-- `ensureInstancesForDate(db, pollDate)` (lines 25-110). -/
def ensureInstancesForDate (db : RolloverDb) (d : Int) : Nat × RolloverDb :=
  if (activeTemplates db).isEmpty then (0, db)
  else
    match rolloverLoop d (plansForDate db d) (existingTemplateIdsAt db d)
        (activeTemplates db) db.nextId with
    | (c, rows, n2) => (c, { db with instances := db.instances ++ rows, nextId := n2 })

def c7Db : RolloverDb :=
  { templates :=
      [⟨"t1", "c1", "k1", "T1", some "Q1", "RANKED", none, "PUBLIC", true,
         [("Yes", 1), ("No", 2)]⟩,
       ⟨"t2", "c1", "k2", "T2", some "Q2", "RANKED", none, "PUBLIC", true,
         [("A", 1), ("B", 2)]⟩,
       ⟨"t3", "c1", "k3", "T3", some "Q3", "SINGLE", none, "PUBLIC", true,
         [("C", 1), ("D", 2)]⟩],
    plans := [⟨"pl3", "t3", 7, false, none, []⟩],
    instances :=
      [⟨"i2", "t2", "c1", 7, none, "T2", some "Q2", "RANKED", none, "PUBLIC", "OPEN",
         [("A", 1), ("B", 2)]⟩],
    nextId := 0 }

def c8Db : RolloverDb :=
  { templates :=
      [⟨"t1", "c1", "k1", "Title", some "Q?", "RANKED", none, "PUBLIC", true,
         [("Yes", 1), ("No", 2)]⟩],
    plans := [], instances := [], nextId := 0 }

/-! ## Instance table constraints: `models.py` and the alembic history

`models.py` declares on `pollInstances` the unique constraint
`uq_pollInstances_template_date` on `(templateId, pollDate)` plus two plain
indexes.  The migration chain first removed the unique constraint in favor
of a non-unique index (`c3d4e5f6a7b8`), then dropped that index and
restored the unique constraint (`126b12d82727`). -/

inductive MigrationOp
  | createUnique (name : String) (cols : List String)
  | dropUnique (name : String)
  | createIndex (name : String) (cols : List String) (unique : Bool)
  | dropIndex (name : String)
deriving Repr, DecidableEq

structure TableSchema where
  uniques : List (String × List String)
  indexes : List (String × List String × Bool)
deriving Repr, DecidableEq

def applyOp (s : TableSchema) : MigrationOp → TableSchema
  | .createUnique n cols => { s with uniques := s.uniques ++ [(n, cols)] }
  | .dropUnique n => { s with uniques := s.uniques.filter (fun u => u.1 != n) }
  | .createIndex n cols u => { s with indexes := s.indexes ++ [(n, cols, u)] }
  | .dropIndex n => { s with indexes := s.indexes.filter (fun i => i.1 != n) }

/-- `pollInstances` table args as first created (models.py lines 176-183). -/
def initialInstanceSchema : TableSchema :=
  { uniques := [("uq_pollInstances_template_date", ["templateId", "pollDate"])],
    indexes := [("ix_pollInstances_date", ["pollDate"], false),
                ("ix_pollInstances_category_date", ["categoryId", "pollDate"], false)] }

/-- `c3d4e5f6a7b8_remove_instance_unique_constraint.upgrade()`. -/
def removeInstanceUniqueOps : List MigrationOp :=
  [.dropUnique "uq_pollInstances_template_date",
   .createIndex "ix_pollInstances_template_date" ["templateId", "pollDate"] false]

/-- `126b12d82727_restore_instance_unique_constraint.upgrade()`. -/
def restoreInstanceUniqueOps : List MigrationOp :=
  [.dropIndex "ix_pollInstances_template_date",
   .createUnique "uq_pollInstances_template_date" ["templateId", "pollDate"]]

/-- The `pollInstances` schema after the full migration chain. -/
def currentInstanceSchema : TableSchema :=
  (removeInstanceUniqueOps ++ restoreInstanceUniqueOps).foldl applyOp initialInstanceSchema

example : irvTally [["A"], ["B"]] ["A", "B"] =
    { winnerOptionId := some "B",
      rounds := [⟨1, [("A", 1), ("B", 1)], some "A", 0⟩,
                 ⟨2, [("B", 1)], none, 1⟩] } := by decide

example : (irvTally [["A","B","C"], ["A","C","B"], ["B","A","C"], ["B","C","A"], ["C","B","A"]]
    ["A","B","C"]).winnerOptionId = some "B" := by decide

example : irvTally [] ["A", "B"] =
    { winnerOptionId := none,
      rounds := [⟨1, [("A", 0), ("B", 0)], none, 0⟩] } := by decide

/-! ### Order lemmas for the Python string comparison -/

lemma charLtB_trans {a b c : Char} (h1 : charLtB a b = true) (h2 : charLtB b c = true) :
    charLtB a c = true := by
  simp only [charLtB, decide_eq_true_eq] at h1 h2 ⊢
  omega

lemma charLtB_ne {a b : Char} (h : charLtB a b = true) : a ≠ b := by
  simp only [charLtB, decide_eq_true_eq] at h
  intro he
  rw [he] at h
  omega

lemma charLtB_total {a b : Char} (h : a ≠ b) : charLtB a b = true ∨ charLtB b a = true := by
  simp only [charLtB, decide_eq_true_eq]
  rcases Nat.lt_trichotomy a.val.toNat b.val.toNat with h1 | h1 | h1
  · exact Or.inl h1
  · exact absurd (Char.ext (UInt32.ext h1)) h
  · exact Or.inr h1

lemma strLtB_trans : ∀ (a b c : List Char),
    strLtB a b = true → strLtB b c = true → strLtB a c = true
  | [], [], _, h1, _ => by simp [strLtB] at h1
  | [], _ :: _, [], _, h2 => by simp [strLtB] at h2
  | [], _ :: _, _ :: _, _, _ => rfl
  | _ :: _, [], _, h1, _ => by simp [strLtB] at h1
  | _ :: _, _ :: _, [], _, h2 => by simp [strLtB] at h2
  | a :: as, b :: bs, c :: cs, h1, h2 => by
    by_cases hab : a = b
    · subst hab
      simp only [strLtB, if_pos rfl] at h1
      by_cases hac : a = c
      · subst hac
        simp only [strLtB, if_pos rfl] at h2 ⊢
        exact strLtB_trans as bs cs h1 h2
      · simp only [strLtB, if_neg hac] at h2 ⊢
        exact h2
    · simp only [strLtB, if_neg hab] at h1
      by_cases hbc : b = c
      · subst hbc
        simp only [strLtB, if_neg hab]
        exact h1
      · simp only [strLtB, if_neg hbc] at h2
        have hlt := charLtB_trans h1 h2
        simp only [strLtB, if_neg (charLtB_ne hlt)]
        exact hlt

lemma strLtB_total : ∀ (a b : List Char), a = b ∨ strLtB a b = true ∨ strLtB b a = true
  | [], [] => Or.inl rfl
  | [], _ :: _ => Or.inr (Or.inl rfl)
  | _ :: _, [] => Or.inr (Or.inr rfl)
  | a :: as, b :: bs => by
    by_cases hab : a = b
    · subst hab
      rcases strLtB_total as bs with h | h | h
      · exact Or.inl (by rw [h])
      · exact Or.inr (Or.inl (by simp [strLtB, h]))
      · exact Or.inr (Or.inr (by simp [strLtB, h]))
    · rcases charLtB_total hab with h | h
      · exact Or.inr (Or.inl (by simp [strLtB, if_neg hab, h]))
      · exact Or.inr (Or.inr (by simp [strLtB, if_neg (Ne.symm hab), h]))

lemma strLe_refl (a : String) : strLe a a = true := by simp [strLe]

lemma strLe_of_strLtB {a b : String} (h : strLtB a.data b.data = true) : strLe a b = true := by
  simp [strLe, h]

lemma strLe_trans {a b c : String} (h1 : strLe a b = true) (h2 : strLe b c = true) :
    strLe a c = true := by
  simp only [strLe, Bool.or_eq_true, beq_iff_eq] at h1 h2 ⊢
  rcases h1 with rfl | h1
  · exact h2
  · rcases h2 with rfl | h2
    · exact Or.inr h1
    · exact Or.inr (strLtB_trans _ _ _ h1 h2)

lemma strMin_eq_or (a b : String) : strMin a b = a ∨ strMin a b = b := by
  unfold strMin
  split
  · exact Or.inr rfl
  · exact Or.inl rfl

lemma strLe_strMin_left (a b : String) : strLe (strMin a b) a = true := by
  unfold strMin
  split
  · rename_i h
    exact strLe_of_strLtB (by simpa [strLt] using h)
  · exact strLe_refl a

lemma strLe_strMin_right (a b : String) : strLe (strMin a b) b = true := by
  unfold strMin
  split
  · exact strLe_refl b
  · rename_i h
    rcases strLtB_total a.data b.data with heq | hlt | hlt
    · have : a = b := String.ext heq
      simp [strLe, this]
    · exact strLe_of_strLtB hlt
    · exact absurd hlt (by simpa [strLt] using h)

lemma foldl_strMin_mem : ∀ (xs : List String) (a : String),
    xs.foldl strMin a = a ∨ xs.foldl strMin a ∈ xs
  | [], _ => Or.inl rfl
  | x :: xs, a => by
    rcases foldl_strMin_mem xs (strMin a x) with h | h
    · rcases strMin_eq_or a x with h2 | h2
      · exact Or.inl (by rw [List.foldl_cons, h, h2])
      · refine Or.inr ?_
        rw [List.foldl_cons, h, h2]
        exact List.mem_cons_self x xs
    · refine Or.inr ?_
      rw [List.foldl_cons]
      exact List.mem_cons_of_mem x h

lemma strLe_foldl_strMin_init : ∀ (xs : List String) (a : String),
    strLe (xs.foldl strMin a) a = true
  | [], a => strLe_refl a
  | x :: xs, a => by
    simp only [List.foldl_cons]
    exact strLe_trans (strLe_foldl_strMin_init xs (strMin a x)) (strLe_strMin_left a x)

lemma strLe_foldl_strMin_mem : ∀ (xs : List String) (a y : String), y ∈ xs →
    strLe (xs.foldl strMin a) y = true
  | [], _, y, h => absurd h (List.not_mem_nil y)
  | x :: xs, a, y, h => by
    simp only [List.foldl_cons]
    rcases List.mem_cons.mp h with rfl | hy
    · exact strLe_trans (strLe_foldl_strMin_init xs (strMin a y)) (strLe_strMin_right a y)
    · exact strLe_foldl_strMin_mem xs (strMin a x) y hy

lemma alphaMinD_mem : ∀ {l : List String}, l ≠ [] → alphaMinD l ∈ l
  | [], h => absurd rfl h
  | x :: xs, _ => by
    rcases foldl_strMin_mem xs x with h | h
    · rw [alphaMinD, h]
      exact List.mem_cons_self x xs
    · exact List.mem_cons_of_mem x h

lemma alphaMinD_le : ∀ {l : List String} {y : String}, y ∈ l → strLe (alphaMinD l) y = true
  | [], y, h => absurd h (List.not_mem_nil y)
  | x :: xs, y, h => by
    rw [alphaMinD]
    rcases List.mem_cons.mp h with rfl | hy
    · exact strLe_foldl_strMin_init xs y
    · exact strLe_foldl_strMin_mem xs x y hy

/-! ### Minimum lemmas for Nat tallies -/

lemma foldl_min_mem : ∀ (xs : List Nat) (a : Nat),
    xs.foldl min a = a ∨ xs.foldl min a ∈ xs
  | [], _ => Or.inl rfl
  | x :: xs, a => by
    rcases foldl_min_mem xs (min a x) with h | h
    · rcases min_choice a x with h2 | h2
      · exact Or.inl (by rw [List.foldl_cons, h, h2])
      · refine Or.inr ?_
        rw [List.foldl_cons, h, h2]
        exact List.mem_cons_self x xs
    · refine Or.inr ?_
      rw [List.foldl_cons]
      exact List.mem_cons_of_mem x h

lemma foldl_min_le_init : ∀ (xs : List Nat) (a : Nat), xs.foldl min a ≤ a
  | [], _ => le_refl _
  | x :: xs, a => by
    simp only [List.foldl_cons]
    exact le_trans (foldl_min_le_init xs (min a x)) (min_le_left a x)

lemma foldl_min_le_mem : ∀ (xs : List Nat) (a y : Nat), y ∈ xs → xs.foldl min a ≤ y
  | [], _, y, h => absurd h (List.not_mem_nil y)
  | x :: xs, a, y, h => by
    simp only [List.foldl_cons]
    rcases List.mem_cons.mp h with rfl | hy
    · exact le_trans (foldl_min_le_init xs (min a y)) (min_le_right a y)
    · exact foldl_min_le_mem xs (min a x) y hy

lemma natMinD_mem : ∀ {l : List Nat}, l ≠ [] → natMinD l ∈ l
  | [], h => absurd rfl h
  | x :: xs, _ => by
    rcases foldl_min_mem xs x with h | h
    · rw [natMinD, h]
      exact List.mem_cons_self x xs
    · exact List.mem_cons_of_mem x h

lemma natMinD_le : ∀ {l : List Nat} {y : Nat}, y ∈ l → natMinD l ≤ y
  | [], y, h => absurd h (List.not_mem_nil y)
  | x :: xs, y, h => by
    rw [natMinD]
    rcases List.mem_cons.mp h with rfl | hy
    · exact foldl_min_le_init xs y
    · exact foldl_min_le_mem xs x y hy

/-! ### The per-round counting invariant -/

lemma selectedOption_mem {remaining ranking : List String} {o : String}
    (h : selectedOption remaining ranking = some o) : o ∈ remaining := by
  have hp := List.find?_some h
  simpa using hp

lemma sum_map_add (f g : String → Nat) : ∀ (l : List String),
    (l.map (fun x => f x + g x)).sum = (l.map f).sum + (l.map g).sum
  | [] => rfl
  | x :: xs => by
    simp only [List.map_cons, List.sum_cons, sum_map_add f g xs]
    omega

lemma sum_indicator_not_mem (o : String) : ∀ (xs : List String), o ∉ xs →
    (xs.map (fun x => if o = x then (1 : Nat) else 0)).sum = 0
  | [], _ => rfl
  | x :: xs, h => by
    have hx : o ≠ x := fun he => h (he ▸ List.mem_cons_self x xs)
    simp only [List.map_cons, List.sum_cons, if_neg hx]
    rw [sum_indicator_not_mem o xs (fun hm => h (List.mem_cons_of_mem x hm))]

lemma sum_indicator_nodup (o : String) : ∀ (xs : List String), xs.Nodup → o ∈ xs →
    (xs.map (fun x => if o = x then (1 : Nat) else 0)).sum = 1
  | [], _, h => absurd h (List.not_mem_nil o)
  | x :: xs, hnd, h => by
    rcases List.mem_cons.mp h with rfl | hm
    · simp only [List.map_cons, List.sum_cons, if_pos rfl]
      rw [sum_indicator_not_mem o xs (List.nodup_cons.mp hnd).1]
      simp
    · have hx : o ≠ x := by
        intro he
        exact (List.nodup_cons.mp hnd).1 (he ▸ hm)
      simp only [List.map_cons, List.sum_cons, if_neg hx]
      rw [sum_indicator_nodup o xs (List.nodup_cons.mp hnd).2 hm]

/-- IRV invariant, line-level: in each round,
`sum(totals[o] for o in remaining) + exhausted == len(ballots)`. -/
lemma activeVotes_add_exhausted (remaining : List String) (hnd : remaining.Nodup) :
    ∀ (ballots : List (List String)),
      activeVotes ballots remaining + exhaustedCount ballots remaining = ballots.length
  | [] => by
    have hz : remaining.map (totalsFor [] remaining) = remaining.map (fun _ => 0) := by
      apply List.map_congr_left
      intro o _
      simp [totalsFor]
    simp [activeVotes, exhaustedCount, hz]
  | b :: bs => by
    have hrec := activeVotes_add_exhausted remaining hnd bs
    have hmap : remaining.map (totalsFor (b :: bs) remaining)
        = remaining.map (fun o => totalsFor bs remaining o
            + (if selectedOption remaining b = some o then 1 else 0)) := by
      apply List.map_congr_left
      intro o _
      simp [totalsFor, List.countP_cons]
    have hsum : activeVotes (b :: bs) remaining
        = activeVotes bs remaining
          + (remaining.map (fun o =>
              if selectedOption remaining b = some o then (1 : Nat) else 0)).sum := by
      unfold activeVotes
      rw [hmap, sum_map_add]
    have hind : (remaining.map (fun o =>
          if selectedOption remaining b = some o then (1 : Nat) else 0)).sum
        = if (selectedOption remaining b).isSome then 1 else 0 := by
      cases hsel : selectedOption remaining b with
      | none => simp
      | some o0 =>
        have ho0 : o0 ∈ remaining := selectedOption_mem hsel
        have hcongr : remaining.map (fun o =>
              if some o0 = some o then (1 : Nat) else 0)
            = remaining.map (fun o => if o0 = o then (1 : Nat) else 0) := by
          apply List.map_congr_left
          intro o _
          simp
        rw [hcongr, sum_indicator_nodup o0 remaining hnd ho0]
        rfl
    have hexh : exhaustedCount (b :: bs) remaining
        = exhaustedCount bs remaining
          + (if (selectedOption remaining b).isNone then 1 else 0) := by
      simp [exhaustedCount, List.countP_cons]
    rw [hsum, hind, hexh]
    cases selectedOption remaining b <;> simp <;> omega

lemma sumTotals_eq_activeVotes (ballots : List (List String)) (remaining : List String) :
    ((roundTotals ballots remaining).map Prod.snd).sum = activeVotes ballots remaining := by
  unfold roundTotals activeVotes
  rw [List.map_map]
  rfl

lemma activeVotes_ne_nil {ballots : List (List String)} {remaining : List String}
    (h : activeVotes ballots remaining ≠ 0) : remaining ≠ [] := by
  intro he
  rw [he] at h
  exact h rfl

lemma activeVotes_single (ballots : List (List String)) (last : String) :
    activeVotes ballots [last] = totalsFor ballots [last] last := by
  simp [activeVotes]

/-- Properties of `sorted([o for o in remaining if totals[o] == minVotes])[0]`:
it is an active option, its tally is minimal among active options, and it is
alphabetically least among the minimum-tally options. -/
lemma eliminatedChoice_spec (ballots : List (List String)) (remaining : List String)
    (hne : remaining ≠ []) :
    eliminatedChoice ballots remaining ∈ remaining ∧
    (∀ o ∈ remaining, totalsFor ballots remaining (eliminatedChoice ballots remaining)
        ≤ totalsFor ballots remaining o) ∧
    (∀ o ∈ remaining, totalsFor ballots remaining o
          = totalsFor ballots remaining (eliminatedChoice ballots remaining) →
        strLe (eliminatedChoice ballots remaining) o = true) := by
  have hmapne : remaining.map (totalsFor ballots remaining) ≠ [] := by
    cases remaining with
    | nil => exact absurd rfl hne
    | cons x xs => simp
  rcases List.mem_map.mp (natMinD_mem hmapne) with ⟨o0, ho0, ho0min⟩
  have ho0f : o0 ∈ remaining.filter (fun o =>
      decide (totalsFor ballots remaining o
        = natMinD (remaining.map (totalsFor ballots remaining)))) :=
    List.mem_filter.mpr ⟨ho0, by simp [ho0min]⟩
  have hE : eliminatedChoice ballots remaining ∈ remaining.filter (fun o =>
      decide (totalsFor ballots remaining o
        = natMinD (remaining.map (totalsFor ballots remaining)))) :=
    alphaMinD_mem (List.ne_nil_of_mem ho0f)
  rcases List.mem_filter.mp hE with ⟨hEmem, hEmin⟩
  have hEmin : totalsFor ballots remaining (eliminatedChoice ballots remaining)
      = natMinD (remaining.map (totalsFor ballots remaining)) := by
    simpa using hEmin
  refine ⟨hEmem, ?_, ?_⟩
  · intro o ho
    rw [hEmin]
    exact natMinD_le (List.mem_map_of_mem _ ho)
  · intro o ho hto
    have hof : o ∈ remaining.filter (fun o =>
        decide (totalsFor ballots remaining o
          = natMinD (remaining.map (totalsFor ballots remaining)))) :=
      List.mem_filter.mpr ⟨ho, by simp [hto, hEmin]⟩
    exact alphaMinD_le hof

lemma roundOk_terminal (ballots : List (List String)) (opts : List String)
    (A : List String) (rn : Nat) (hnd : A.Nodup) (hsub : List.Sublist A opts)
    (hterm : activeVotes ballots A = 0
      ∨ ∃ w ∈ A, activeVotes ballots A < 2 * totalsFor ballots A w) :
    RoundOk ballots opts ⟨rn, roundTotals ballots A, none, exhaustedCount ballots A⟩ := by
  refine ⟨A, hnd, hsub, rfl, rfl, ?_, fun _ => hterm⟩
  intro e he
  simp at he

lemma roundOk_elim (ballots : List (List String)) (opts : List String)
    (A : List String) (rn : Nat) (hnd : A.Nodup) (hsub : List.Sublist A opts)
    (hav : activeVotes ballots A ≠ 0)
    (hnomaj : ∀ o ∈ A, ¬ activeVotes ballots A < 2 * totalsFor ballots A o) :
    RoundOk ballots opts
      ⟨rn, roundTotals ballots A, some (eliminatedChoice ballots A),
       exhaustedCount ballots A⟩ := by
  obtain ⟨hmem, hmin, halpha⟩ := eliminatedChoice_spec ballots A (activeVotes_ne_nil hav)
  refine ⟨A, hnd, hsub, rfl, rfl, ?_, ?_⟩
  case refine_2 =>
    intro h
    simp at h
  intro e he
  have he : e = eliminatedChoice ballots A := by
    cases he
    rfl
  subst he
  exact ⟨hav, hnomaj, hmem, hmin, halpha⟩

lemma finalPhase_rounds_ok (ballots : List (List String)) (opts : List String)
    (last : String) (rn : Nat) (rs : List RoundRec)
    (hsub : List.Sublist [last] opts)
    (hrs : ∀ rec ∈ rs, RoundOk ballots opts rec) :
    ∀ rec ∈ (finalPhase ballots last rn rs).rounds, RoundOk ballots opts rec := by
  intro rec hrec
  have hnd : ([last] : List String).Nodup := by simp
  unfold finalPhase at hrec
  by_cases hav : activeVotes ballots [last] = 0
  · rw [if_pos hav] at hrec
    rcases List.mem_append.mp hrec with h | h
    · exact hrs rec h
    · have heq : rec = ⟨rn, roundTotals ballots [last], none, exhaustedCount ballots [last]⟩ := by
        simpa using h
      rw [heq]
      exact roundOk_terminal ballots opts [last] rn hnd hsub (Or.inl hav)
  · rw [if_neg hav] at hrec
    have hmaj : activeVotes ballots [last] < 2 * totalsFor ballots [last] last := by
      rw [activeVotes_single] at hav ⊢
      omega
    rw [if_pos hmaj] at hrec
    rcases List.mem_append.mp hrec with h | h
    · exact hrs rec h
    · have heq : rec = ⟨rn, roundTotals ballots [last], none, exhaustedCount ballots [last]⟩ := by
        simpa using h
      rw [heq]
      exact roundOk_terminal ballots opts [last] rn hnd hsub
        (Or.inr ⟨last, by simp, hmaj⟩)

/-- Every round record emitted by the `irvTally` loop satisfies `RoundOk`. -/
lemma irvGoF_rounds_ok (ballots : List (List String)) (opts : List String) :
    ∀ (fuel : Nat) (remaining : List String) (rn : Nat) (rs : List RoundRec),
      remaining.length < fuel → remaining.Nodup → List.Sublist remaining opts →
      (∀ rec ∈ rs, RoundOk ballots opts rec) →
      ∀ rec ∈ (irvGoF ballots fuel remaining rn rs).rounds, RoundOk ballots opts rec := by
  intro fuel
  induction fuel with
  | zero =>
    intro remaining rn rs hlt
    omega
  | succ fuel ih =>
    intro remaining rn rs hlt hnd hsub hrs rec hrec
    simp only [irvGoF] at hrec
    by_cases hav : activeVotes ballots remaining = 0
    · rw [if_pos hav] at hrec
      rcases List.mem_append.mp hrec with h | h
      · exact hrs rec h
      · have heq : rec
            = ⟨rn, roundTotals ballots remaining, none, exhaustedCount ballots remaining⟩ := by
          simpa using h
        rw [heq]
        exact roundOk_terminal ballots opts remaining rn hnd hsub (Or.inl hav)
    · rw [if_neg hav] at hrec
      cases hfind : remaining.find? (fun o =>
          decide (activeVotes ballots remaining < 2 * totalsFor ballots remaining o)) with
      | some w =>
        rw [hfind] at hrec
        rcases List.mem_append.mp hrec with h | h
        · exact hrs rec h
        · have heq : rec
              = ⟨rn, roundTotals ballots remaining, none, exhaustedCount ballots remaining⟩ := by
            simpa using h
          rw [heq]
          have hwmem : w ∈ remaining := List.mem_of_find?_eq_some hfind
          have hwmaj : activeVotes ballots remaining < 2 * totalsFor ballots remaining w := by
            have := List.find?_some hfind
            simpa using this
          exact roundOk_terminal ballots opts remaining rn hnd hsub (Or.inr ⟨w, hwmem, hwmaj⟩)
      | none =>
        rw [hfind] at hrec
        have hnomaj : ∀ o ∈ remaining,
            ¬ activeVotes ballots remaining < 2 * totalsFor ballots remaining o := by
          intro o ho
          have := List.find?_eq_none.mp hfind o ho
          simpa using this
        have hne : remaining ≠ [] := activeVotes_ne_nil hav
        have hEmem := (eliminatedChoice_spec ballots remaining hne).1
        have hlen1 : 1 ≤ remaining.length := by
          cases remaining with
          | nil => exact absurd rfl hne
          | cons x xs => simp
        have hrs2 : ∀ r ∈ rs ++ [(⟨rn, roundTotals ballots remaining,
            some (eliminatedChoice ballots remaining),
            exhaustedCount ballots remaining⟩ : RoundRec)], RoundOk ballots opts r := by
          intro r hr
          rcases List.mem_append.mp hr with h | h
          · exact hrs r h
          · have heq : r = ⟨rn, roundTotals ballots remaining,
                some (eliminatedChoice ballots remaining),
                exhaustedCount ballots remaining⟩ := by simpa using h
            rw [heq]
            exact roundOk_elim ballots opts remaining rn hnd hsub hav hnomaj
        have herased : (remaining.erase (eliminatedChoice ballots remaining)).length
            = remaining.length - 1 := List.length_erase_of_mem hEmem
        have hsub2 : List.Sublist (remaining.erase (eliminatedChoice ballots remaining)) opts :=
          (List.erase_sublist _ _).trans hsub
        have hnd2 : (remaining.erase (eliminatedChoice ballots remaining)).Nodup :=
          hnd.erase _
        cases herase : remaining.erase (eliminatedChoice ballots remaining) with
        | nil =>
          rw [herase] at hrec
          have h0 : (0 : Nat) < fuel := by omega
          exact ih [] (rn + 1) _ (by simpa using h0) (by simp) (by simp) hrs2 rec hrec
        | cons last tail =>
          cases tail with
          | nil =>
            rw [herase] at hrec
            refine finalPhase_rounds_ok ballots opts last (rn + 1) _ ?_ hrs2 rec hrec
            rw [← herase]
            exact hsub2
          | cons y zs =>
            rw [herase] at hrec
            refine ih (last :: y :: zs) (rn + 1) _ ?_ ?_ ?_ hrs2 rec hrec
            · rw [← herase, herased]
              omega
            · rw [← herase]
              exact hnd2
            · rw [← herase]
              exact hsub2

/-! ### Shape of the emitted rounds list -/

lemma finalPhase_shape (ballots : List (List String)) (last : String) (rn : Nat)
    (rs : List RoundRec) :
    ∃ t e, (finalPhase ballots last rn rs).rounds = rs ++ [⟨rn, t, none, e⟩] := by
  unfold finalPhase
  split
  · exact ⟨_, _, rfl⟩
  · split
    · exact ⟨_, _, rfl⟩
    · exact ⟨_, _, rfl⟩

/-- Each run of the loop appends at least one and at most `|remaining| + 1`
round records, numbered consecutively from `rn`, and the last appended
record carries `eliminated = None`. -/
lemma irvGoF_structure (ballots : List (List String)) :
    ∀ (fuel : Nat) (remaining : List String) (rn : Nat) (rs : List RoundRec),
      remaining.length < fuel →
      ∃ newRecs : List RoundRec,
        (irvGoF ballots fuel remaining rn rs).rounds = rs ++ newRecs ∧
        newRecs.length ≤ remaining.length + 1 ∧
        newRecs.map RoundRec.round = List.range' rn newRecs.length ∧
        ∃ pre lastRec, newRecs = pre ++ [lastRec] ∧ lastRec.eliminated = none := by
  intro fuel
  induction fuel with
  | zero =>
    intro remaining rn rs hlt
    omega
  | succ fuel ih =>
    intro remaining rn rs hlt
    simp only [irvGoF]
    by_cases hav : activeVotes ballots remaining = 0
    · rw [if_pos hav]
      exact ⟨[⟨rn, roundTotals ballots remaining, none, exhaustedCount ballots remaining⟩],
        rfl, by simp, by simp [List.range'], ⟨[], _, rfl, rfl⟩⟩
    · rw [if_neg hav]
      cases hfind : remaining.find? (fun o =>
          decide (activeVotes ballots remaining < 2 * totalsFor ballots remaining o)) with
      | some w =>
        exact ⟨[⟨rn, roundTotals ballots remaining, none, exhaustedCount ballots remaining⟩],
          rfl, by simp, by simp [List.range'], ⟨[], _, rfl, rfl⟩⟩
      | none =>
        have hne : remaining ≠ [] := activeVotes_ne_nil hav
        have hEmem := (eliminatedChoice_spec ballots remaining hne).1
        have hlen1 : 1 ≤ remaining.length := by
          cases remaining with
          | nil => exact absurd rfl hne
          | cons x xs => simp
        have herased : (remaining.erase (eliminatedChoice ballots remaining)).length
            = remaining.length - 1 := List.length_erase_of_mem hEmem
        cases herase : remaining.erase (eliminatedChoice ballots remaining) with
        | nil =>
          have h0 : (0 : Nat) < fuel := by omega
          obtain ⟨newRecs, hrounds, hlen, hmap, pre, lastRec, hsplit, hlast⟩ :=
            ih [] (rn + 1) (rs ++ [⟨rn, roundTotals ballots remaining,
              some (eliminatedChoice ballots remaining),
              exhaustedCount ballots remaining⟩]) (by simpa using h0)
          refine ⟨⟨rn, roundTotals ballots remaining,
              some (eliminatedChoice ballots remaining),
              exhaustedCount ballots remaining⟩ :: newRecs, ?_, ?_, ?_, ?_⟩
          · rw [hrounds]
            simp
          · have hn1 : newRecs.length ≤ 1 := by simpa using hlen
            simp only [List.length_cons]
            omega
          · simp only [List.map_cons, hmap, List.length_cons]
            rw [List.range'_succ]
          · exact ⟨⟨rn, roundTotals ballots remaining,
              some (eliminatedChoice ballots remaining),
              exhaustedCount ballots remaining⟩ :: pre, lastRec, by rw [hsplit]; simp, hlast⟩
        | cons last tail =>
          cases tail with
          | nil =>
            obtain ⟨t, e, hfp⟩ := finalPhase_shape ballots last (rn + 1)
              (rs ++ [⟨rn, roundTotals ballots remaining,
                some (eliminatedChoice ballots remaining),
                exhaustedCount ballots remaining⟩])
            refine ⟨[⟨rn, roundTotals ballots remaining,
                some (eliminatedChoice ballots remaining),
                exhaustedCount ballots remaining⟩, ⟨rn + 1, t, none, e⟩], ?_, ?_, ?_, ?_⟩
            · rw [hfp, List.append_cons, List.append_assoc]
              simp
            · simpa using hlen1
            · simp [List.range'_succ]
            · exact ⟨[⟨rn, roundTotals ballots remaining,
                some (eliminatedChoice ballots remaining),
                exhaustedCount ballots remaining⟩], ⟨rn + 1, t, none, e⟩, rfl, rfl⟩
          | cons y zs =>
            have hlt2 : (last :: y :: zs).length < fuel := by
              rw [← herase, herased]
              omega
            obtain ⟨newRecs, hrounds, hlen, hmap, pre, lastRec, hsplit, hlast⟩ :=
              ih (last :: y :: zs) (rn + 1) (rs ++ [⟨rn, roundTotals ballots remaining,
                some (eliminatedChoice ballots remaining),
                exhaustedCount ballots remaining⟩]) hlt2
            refine ⟨⟨rn, roundTotals ballots remaining,
                some (eliminatedChoice ballots remaining),
                exhaustedCount ballots remaining⟩ :: newRecs, ?_, ?_, ?_, ?_⟩
            · rw [hrounds]
              simp
            · have hlen3 : (last :: y :: zs).length = remaining.length - 1 := by
                rw [← herase, herased]
              rw [hlen3] at hlen
              simp only [List.length_cons]
              omega
            · simp only [List.map_cons, hmap, List.length_cons]
              rw [List.range'_succ]
            · exact ⟨⟨rn, roundTotals ballots remaining,
                some (eliminatedChoice ballots remaining),
                exhaustedCount ballots remaining⟩ :: pre, lastRec, by rw [hsplit]; simp, hlast⟩

/-- The fuel supplied by `irvTally` is irrelevant as long as it exceeds
the number of active options: the loop always returns before fuel runs
out, i.e. the Python `while True` loop terminates. -/
lemma irvGoF_fuel_stable (ballots : List (List String)) :
    ∀ (fuel1 fuel2 : Nat) (remaining : List String) (rn : Nat) (rs : List RoundRec),
      remaining.length < fuel1 → remaining.length < fuel2 →
      irvGoF ballots fuel1 remaining rn rs = irvGoF ballots fuel2 remaining rn rs := by
  intro fuel1
  induction fuel1 with
  | zero =>
    intro fuel2 remaining rn rs h1
    omega
  | succ fuel1 ih =>
    intro fuel2 remaining rn rs h1 h2
    cases fuel2 with
    | zero => omega
    | succ fuel2 =>
      simp only [irvGoF]
      by_cases hav : activeVotes ballots remaining = 0
      · simp only [if_pos hav]
      · simp only [if_neg hav]
        cases hfind : remaining.find? (fun o =>
            decide (activeVotes ballots remaining < 2 * totalsFor ballots remaining o)) with
        | some w => simp only [hfind]
        | none =>
          simp only [hfind]
          have hne : remaining ≠ [] := activeVotes_ne_nil hav
          have hEmem := (eliminatedChoice_spec ballots remaining hne).1
          have hlen1 : 1 ≤ remaining.length := by
            cases remaining with
            | nil => exact absurd rfl hne
            | cons x xs => simp
          have herased : (remaining.erase (eliminatedChoice ballots remaining)).length
              = remaining.length - 1 := List.length_erase_of_mem hEmem
          cases herase : remaining.erase (eliminatedChoice ballots remaining) with
          | nil =>
            simp only [herase]
            have ha : (0 : Nat) < fuel1 := by omega
            have hb : (0 : Nat) < fuel2 := by omega
            exact ih fuel2 [] (rn + 1) _ (by simpa using ha) (by simpa using hb)
          | cons last tail =>
            cases tail with
            | nil => simp only [herase]
            | cons y zs =>
              simp only [herase]
              have hl : (last :: y :: zs).length = remaining.length - 1 := by
                rw [← herase, herased]
              have ha : (last :: y :: zs).length < fuel1 := by omega
              have hb : (last :: y :: zs).length < fuel2 := by omega
              exact ih fuel2 (last :: y :: zs) (rn + 1) _ ha hb

/-! ## Claim theorems for the tally engine -/

/-- C1: when exactly one active option remains, `irvTally` enters its final
re-tally phase (`finalPhase`, lines 64-126) instead of declaring the option
winner outright: it re-tallies all ballots with only that option active and
returns the option as `winnerOptionId` exactly when its re-tallied count
strictly exceeds half of the recomputed active-vote total, and `null`
otherwise.  In particular, for options `[A,B]` and ballots `[[A],[B]]`,
round 1 ties 1-1, A is eliminated alphabetically, and round 2 gives B
1 active vote of 1 (A's ballot exhausted), so B wins. -/
theorem C1_last_option_requires_retally_majority :
    (∀ (ballots : List (List String)) (last : String) (rn : Nat) (rs : List RoundRec),
      (finalPhase ballots last rn rs).winnerOptionId =
        if activeVotes ballots [last] < 2 * totalsFor ballots [last] last
        then some last else none)
    ∧ irvTally [["A"], ["B"]] ["A", "B"] =
        { winnerOptionId := some "B",
          rounds := [⟨1, [("A", 1), ("B", 1)], some "A", 0⟩,
                     ⟨2, [("B", 1)], none, 1⟩] } := by
  constructor
  · intro ballots last rn rs
    unfold finalPhase
    by_cases hav : activeVotes ballots [last] = 0
    · have hnlt : ¬ activeVotes ballots [last] < 2 * totalsFor ballots [last] last := by
        rw [activeVotes_single] at hav ⊢
        omega
      simp [if_pos hav, if_neg hnlt]
    · by_cases hlt : activeVotes ballots [last] < 2 * totalsFor ballots [last] last
      · simp [if_neg hav, if_pos hlt]
      · simp [if_neg hav, if_neg hlt]
  · decide

/-- C2 counterexample: `irvTally [] ["A","B"]` emits a round in which no
active option's tally strictly exceeds half of the active-vote total and
yet no option is eliminated (`eliminated = null`), because the active-vote
total of that round is zero.  This refutes the claim that every such round
eliminates exactly one option. -/
theorem C2_counterexample :
    ∃ rec ∈ (irvTally [] ["A", "B"]).rounds,
      (∀ p ∈ rec.totals, ¬ sumTotals rec < 2 * p.2) ∧ rec.eliminated = none := by
  refine ⟨⟨1, [("A", 0), ("B", 0)], none, 0⟩, by decide, by decide, rfl⟩

/-- C2 (amended): in every round of `irvTally` whose active-vote total is
positive and in which no active option's tally strictly exceeds half of the
active-vote total, exactly one option is eliminated: an active option whose
tally equals the minimum tally among active options, the alphabetically
(Python string order) least among ties. -/
theorem C2_elimination_rule (ballots : List (List String)) (optionIds : List String)
    (rec : RoundRec) (hrec : rec ∈ (irvTally ballots optionIds).rounds)
    (hpos : 0 < sumTotals rec)
    (hnomaj : ∀ p ∈ rec.totals, ¬ sumTotals rec < 2 * p.2) :
    ∃ e te, rec.eliminated = some e ∧ (e, te) ∈ rec.totals ∧
      (∀ p ∈ rec.totals, te ≤ p.2) ∧
      (∀ p ∈ rec.totals, p.2 = te → strLe e p.1 = true) := by
  rw [irvTally] at hrec
  have hok := irvGoF_rounds_ok ballots optionIds.dedup (optionIds.dedup.length + 1)
    optionIds.dedup 1 [] (by omega) (List.nodup_dedup _) (List.Sublist.refl _)
    (by simp) rec hrec
  obtain ⟨A, hnd, hsub, ht, he, hsome, hnone⟩ := hok
  have hsum : sumTotals rec = activeVotes ballots A := by
    rw [sumTotals, ht, sumTotals_eq_activeVotes]
  cases helim : rec.eliminated with
  | none =>
    rcases hnone helim with h0 | ⟨w, hw, hmaj⟩
    · rw [hsum, h0] at hpos
      omega
    · have hp : (w, totalsFor ballots A w) ∈ rec.totals := by
        rw [ht]
        exact List.mem_map_of_mem _ hw
      have := hnomaj _ hp
      rw [hsum] at this
      exact absurd hmaj this
  | some e =>
    obtain ⟨_, _, hemem, hmin, halpha⟩ := hsome e helim
    refine ⟨e, totalsFor ballots A e, rfl, ?_, ?_, ?_⟩
    · rw [ht]
      exact List.mem_map_of_mem _ hemem
    · intro p hp
      rw [ht] at hp
      rcases List.mem_map.mp hp with ⟨o, ho, hpo⟩
      rw [← hpo]
      exact hmin o ho
    · intro p hp hpe
      rw [ht] at hp
      rcases List.mem_map.mp hp with ⟨o, ho, hpo⟩
      rw [← hpo] at hpe ⊢
      exact halpha o ho hpe

/-- Witness for C2 (amended) at the specification's worked example:
ballots `[[A,B,C],[A,C,B],[B,A,C],[B,C,A],[C,B,A]]` over `[A,B,C]`,
round 1 (tallies A=2, B=2, C=1, no majority) eliminates C. -/
theorem C2_elimination_rule_witness :
    ∃ e te, (⟨1, [("A", 2), ("B", 2), ("C", 1)], some "C", 0⟩ : RoundRec).eliminated = some e ∧
      (e, te) ∈ [("A", 2), ("B", 2), ("C", 1)] ∧
      (∀ p ∈ [("A", (2 : Nat)), ("B", 2), ("C", 1)], te ≤ p.2) ∧
      (∀ p ∈ [("A", (2 : Nat)), ("B", 2), ("C", 1)], p.2 = te → strLe e p.1 = true) :=
  C2_elimination_rule
    [["A", "B", "C"], ["A", "C", "B"], ["B", "A", "C"], ["B", "C", "A"], ["C", "B", "A"]]
    ["A", "B", "C"]
    ⟨1, [("A", 2), ("B", 2), ("C", 1)], some "C", 0⟩
    (by decide) (by decide) (by decide)

/-- C3: every round record emitted by `irvTally` satisfies
`sum(tallies over active options) + exhausted == totalBallots`, and its
`totals` snapshot contains exactly one entry (possibly zero) for each
member of the round's active option set, with the true tallies. -/
theorem C3_round_sum_invariant (ballots : List (List String)) (optionIds : List String)
    (rec : RoundRec) (hrec : rec ∈ (irvTally ballots optionIds).rounds) :
    sumTotals rec + rec.exhausted = ballots.length ∧
    ∃ A : List String, A.Nodup ∧ List.Sublist A optionIds.dedup ∧
      rec.totals = roundTotals ballots A ∧ rec.exhausted = exhaustedCount ballots A := by
  rw [irvTally] at hrec
  have hok := irvGoF_rounds_ok ballots optionIds.dedup (optionIds.dedup.length + 1)
    optionIds.dedup 1 [] (by omega) (List.nodup_dedup _) (List.Sublist.refl _)
    (by simp) rec hrec
  obtain ⟨A, hnd, hsub, ht, he, _, _⟩ := hok
  refine ⟨?_, A, hnd, hsub, ht, he⟩
  rw [sumTotals, ht, he, sumTotals_eq_activeVotes]
  exact activeVotes_add_exhausted A hnd ballots

/-- Witness for C3 at the two-ballot example: round 1 has tallies 1+1 and
0 exhausted over 2 ballots. -/
theorem C3_round_sum_invariant_witness :
    sumTotals ⟨1, [("A", 1), ("B", 1)], some "A", 0⟩
        + (⟨1, [("A", 1), ("B", 1)], some "A", 0⟩ : RoundRec).exhausted = 2 ∧
    ∃ A : List String, A.Nodup ∧ List.Sublist A (["A", "B"].dedup) ∧
      (⟨1, [("A", 1), ("B", 1)], some "A", 0⟩ : RoundRec).totals
        = roundTotals [["A"], ["B"]] A ∧
      (⟨1, [("A", 1), ("B", 1)], some "A", 0⟩ : RoundRec).exhausted
        = exhaustedCount [["A"], ["B"]] A :=
  C3_round_sum_invariant [["A"], ["B"]] ["A", "B"]
    ⟨1, [("A", 1), ("B", 1)], some "A", 0⟩ (by decide)

/-- C10: `irvTally` is total: the fuelled loop returns the same result for
every fuel exceeding the number of distinct options (the loop always
terminates, each elimination round removing one active option), the rounds
list has at most `|optionIds| + 1` entries numbered consecutively from 1,
and the last round record always has `eliminated = null`. -/
theorem C10_termination_and_round_shape :
    (∀ (ballots : List (List String)) (optionIds : List String),
      (irvTally ballots optionIds).rounds.length ≤ optionIds.length + 1 ∧
      (irvTally ballots optionIds).rounds.map RoundRec.round
        = List.range' 1 (irvTally ballots optionIds).rounds.length ∧
      ∃ pre lastRec, (irvTally ballots optionIds).rounds = pre ++ [lastRec] ∧
        lastRec.eliminated = none)
    ∧ ∀ (ballots : List (List String)) (optionIds : List String) (fuel : Nat),
        optionIds.dedup.length < fuel →
        irvGoF ballots fuel optionIds.dedup 1 [] = irvTally ballots optionIds := by
  constructor
  · intro ballots optionIds
    obtain ⟨newRecs, hrounds, hlen, hmap, pre, lastRec, hsplit, hlast⟩ :=
      irvGoF_structure ballots (optionIds.dedup.length + 1) optionIds.dedup 1 [] (by omega)
    have hr : (irvTally ballots optionIds).rounds = newRecs := by
      rw [irvTally, hrounds, List.nil_append]
    have hdl : optionIds.dedup.length ≤ optionIds.length :=
      (List.dedup_sublist optionIds).length_le
    refine ⟨?_, ?_, pre, lastRec, ?_, hlast⟩
    · rw [hr]
      omega
    · rw [hr]
      exact hmap
    · rw [hr]
      exact hsplit
  · intro ballots optionIds fuel hfuel
    rw [irvTally]
    exact irvGoF_fuel_stable ballots fuel (optionIds.dedup.length + 1)
      optionIds.dedup 1 [] hfuel (by omega)

/-- Witness for C10's fuel-stability hypothesis at a concrete input. -/
theorem C10_termination_witness :
    irvGoF [["A"], ["B"]] 7 (["A", "B"].dedup) 1 [] = irvTally [["A"], ["B"]] ["A", "B"] :=
  C10_termination_and_round_shape.2 [["A"], ["B"]] ["A", "B"] 7 (by decide)

/-! ### Snapshot service lemmas and claim theorems -/

lemma upsert_preserves {db : TallyDb} {pollId : String} {mv : Int} {b : Bool} {db2 : TallyDb}
    (h : upsertResultSnapshot db pollId mv = .ok (b, db2)) :
    db2.instances = db.instances ∧ db2.ballots = db.ballots := by
  unfold upsertResultSnapshot at h
  split at h
  · cases h
    exact ⟨rfl, rfl⟩
  · split at h
    · cases h
    · cases h
      exact ⟨rfl, rfl⟩
    · cases h
      unfold writeSnapshotRow
      split
      · exact ⟨rfl, rfl⟩
      · exact ⟨rfl, rfl⟩

lemma snapshotLoop_ok (mv : Int) : ∀ (insts : List PollInstanceRow) (db : TallyDb)
    {sc : Nat} {evs : List CloseEv} {db2 : TallyDb},
    snapshotLoop mv insts db = .ok (sc, evs, db2) →
    db2.instances = db.instances ∧ db2.ballots = db.ballots ∧
    (∀ e ∈ evs, e.isSnap = true) ∧ sc = evs.length
  | [], db, sc, evs, db2, h => by
    cases h
    exact ⟨rfl, rfl, by simp, rfl⟩
  | inst :: rest, db, sc, evs, db2, h => by
    rw [snapshotLoop] at h
    cases hup : upsertResultSnapshot db inst.id mv with
    | error e => rw [hup] at h; cases h
    | ok p =>
      obtain ⟨ok1, dbA⟩ := p
      rw [hup] at h
      dsimp only at h
      cases hrec : snapshotLoop mv rest dbA with
      | error e => rw [hrec] at h; cases h
      | ok q =>
        obtain ⟨sc1, evs1, dbB⟩ := q
        rw [hrec] at h
        dsimp only at h
        cases h
        obtain ⟨hi1, hb1⟩ := upsert_preserves hup
        obtain ⟨hi2, hb2, hsnap, hlen⟩ := snapshotLoop_ok mv rest dbA hrec
        refine ⟨hi2.trans hi1, hb2.trans hb1, ?_, ?_⟩
        · intro e he
          rcases List.mem_append.mp he with he | he
          · cases ok1 with
            | true =>
              simp at he
              rw [he]
              rfl
            | false => simp at he
          · exact hsnap e he
        · cases ok1 <;> simp [hlen, Nat.add_comm]

lemma openInstancesAt_congr {dbA dbB : TallyDb} (h : dbA.instances = dbB.instances)
    (d : Int) : openInstancesAt dbA d = openInstancesAt dbB d := by
  unfold openInstancesAt
  rw [h]

lemma openInstancesAt_after_close (l : List PollInstanceRow) (d : Int) :
    (l.map (fun i => closeOpenAt i d)).filter
      (fun i => i.pollDate == d && i.status == "OPEN") = [] := by
  induction l with
  | nil => rfl
  | cons i rest ih =>
    simp only [List.map_cons, List.filter_cons]
    suffices hfc : ((closeOpenAt i d).pollDate == d && (closeOpenAt i d).status == "OPEN")
        = false by
      simp [hfc, ih]
    unfold closeOpenAt
    by_cases hc : (i.pollDate == d && i.status == "OPEN") = true
    · rw [if_pos hc]
      simp
    · rw [if_neg hc]
      simpa using hc

/-- C4: `closeAndSnapshotForDate` runs entirely inside one transaction: it
selects every OPEN instance whose open date equals the target date, runs the
snapshot pass over all of them, and only afterwards flips exactly those
instances to CLOSED, returning the snapshot-write count and the closed-row
count; every snapshot write precedes every status flip in the transaction's
write order, and on any error the transaction aborts with no event published
and the store unchanged. -/
theorem C4_close_snapshots_before_flips (db : TallyDb) (pollDate : Int) :
    (∀ res evs db2, closeAndSnapshotForDate db pollDate = (.ok res, evs, db2) →
      (∃ snapEvs flipEvs, evs = snapEvs ++ flipEvs ∧
        (∀ e ∈ snapEvs, e.isSnap = true) ∧
        flipEvs = (openInstancesAt db pollDate).map (fun i => CloseEv.statusFlip i.id) ∧
        res.snapCount = snapEvs.length) ∧
      res.closedCount = (openInstancesAt db pollDate).length ∧
      db2.instances = db.instances.map (fun i => closeOpenAt i pollDate) ∧
      db2.ballots = db.ballots ∧
      openInstancesAt db2 pollDate = []) ∧
    (∀ e evs db2, closeAndSnapshotForDate db pollDate = (.error e, evs, db2) →
      db2 = db ∧ evs = []) := by
  unfold closeAndSnapshotForDate closeAndSnapshotBody
  cases hsl : snapshotLoop defaultMinVotes (openInstancesAt db pollDate) db with
  | error e =>
    refine ⟨?_, ?_⟩
    · intro res evs db2 h
      simp at h
    · intro e2 evs db2 h
      simp at h
      exact ⟨h.2.2.symm, h.2.1⟩
  | ok p =>
    obtain ⟨sc, evs1, dbA⟩ := p
    obtain ⟨hi, hb, hsnap, hlen⟩ := snapshotLoop_ok defaultMinVotes _ db hsl
    have hopen : openInstancesAt dbA pollDate = openInstancesAt db pollDate :=
      openInstancesAt_congr hi pollDate
    refine ⟨?_, ?_⟩
    · intro res evs db2 h
      simp only [Prod.mk.injEq, Except.ok.injEq] at h
      obtain ⟨hres, hevs, hdb2⟩ := h
      refine ⟨⟨evs1, (openInstancesAt dbA pollDate).map (fun i => CloseEv.statusFlip i.id),
        ?_, hsnap, ?_, ?_⟩, ?_, ?_, ?_, ?_⟩
      · rw [← hevs]
      · rw [hopen]
      · rw [← hres, hlen]
      · rw [← hres, hopen]
      · rw [← hdb2]
        simp only
        rw [hi]
      · rw [← hdb2]
        simp only
        exact hb
      · rw [← hdb2]
        unfold openInstancesAt
        simp only
        exact openInstancesAt_after_close dbA.instances pollDate
    · intro e evs db2 h
      simp at h

/-- Witness for C4 at a one-instance store: the single OPEN RANKED instance
(zero ballots, so no snapshot write) is flipped to CLOSED. -/
theorem C4_close_witness :
    (∃ snapEvs flipEvs, ([CloseEv.statusFlip "p4"] : List CloseEv) = snapEvs ++ flipEvs ∧
      (∀ e ∈ snapEvs, e.isSnap = true) ∧
      flipEvs = (openInstancesAt c4Db 3).map (fun i => CloseEv.statusFlip i.id) ∧
      (⟨0, 1⟩ : CloseResult).snapCount = snapEvs.length) ∧
    (⟨0, 1⟩ : CloseResult).closedCount = (openInstancesAt c4Db 3).length ∧
    c4ClosedDb.instances = c4Db.instances.map (fun i => closeOpenAt i 3) ∧
    c4ClosedDb.ballots = c4Db.ballots ∧
    openInstancesAt c4ClosedDb 3 = [] :=
  (C4_close_snapshots_before_flips c4Db 3).1 ⟨0, 1⟩ [CloseEv.statusFlip "p4"] c4ClosedDb rfl

/-- C5 (code bug): for an existing SINGLE-choice instance,
`upsertResultSnapshot` raises `TypeError` instead of returning a bool:
`buildSingleResults` emits only `totalVotes`, so
`fields["totalBallots"]` is `None` and the Python comparison
`None < minVotes` (line 45) raises.  A RANKED instance follows the
documented behavior (here: below the minimum, so `False` with any
existing snapshot deleted and the store otherwise unchanged). -/
theorem C5_single_snapshot_raises_type_error :
    (buildResults c5SingleDb "p1").found = true ∧
    upsertResultSnapshot c5SingleDb "p1" defaultMinVotes
      = Except.error PyErr.typeError ∧
    upsertResultSnapshot c5RankedDb "p2" defaultMinVotes
      = Except.ok (false, c5RankedDb) :=
  ⟨rfl, rfl, rfl⟩

/-- C6 (code bug): submitting the same valid vote twice.
With the cache up, the second identical call from the same IP is rejected by
the per-(poll, ip) `limit=1` rate limiter (429 "Too many attempts") BEFORE
any duplicate check runs; the fast-path 409 "Already voted" fires only when
the rate-limit key differs (here: a second IP with the same identity).
With the cache down, every pre-database check fails open and the duplicate
INSERT violates the unique `(instanceId, voterTokenHash)` constraint at
`db.flush()` — outside the `try/except IntegrityError` — so the
`IntegrityError` propagates as an unhandled storage error instead of being
translated into the "already voted" rejection. -/
theorem C6_duplicate_vote_double_submit :
    (∃ s1, submitVote c6CacheUpDb "p6" "vh" "ih" 0 ["o1", "o2"] none none "b1"
        = .ok (.accepted, s1) ∧
      (submitVote s1 "p6" "vh" "ih" 0 ["o1", "o2"] none none "b2").map Prod.fst
        = .ok .rateLimited) ∧
    (∃ s1, submitVote c6CacheUpDb "p6" "vh" "ih" 0 ["o1", "o2"] none none "b1"
        = .ok (.accepted, s1) ∧
      (submitVote s1 "p6" "vh" "ih2" 0 ["o1", "o2"] none none "b2").map Prod.fst
        = .ok .alreadyVoted) ∧
    (∃ s2, submitVote c6CacheDownDb "p6" "vh" "ih" 0 ["o1", "o2"] none none "b1"
        = .ok (.accepted, s2) ∧
      submitVote s2 "p6" "vh" "ih" 0 ["o1", "o2"] none none "b2"
        = .error .integrityError) :=
  ⟨⟨_, rfl, rfl⟩, ⟨_, rfl, rfl⟩, ⟨_, rfl, rfl⟩⟩

/-! ### Rollover lemmas and claim theorems -/

lemma rolloverLoop_rows (d : Int) (plans : List PollPlanRow) (existingIds : List String) :
    ∀ (ts : List PollTemplateRow) (n : Nat) (r : InstanceTableRow),
      r ∈ (rolloverLoop d plans existingIds ts n).2.1 →
      r.pollDate = d ∧ r.closeDate = none ∧ r.status = "OPEN" ∧
      ∃ t ∈ ts, r.templateId = t.id ∧ existingIds.contains t.id = false ∧
        planDisabled (planFor plans t.id) = false
  | [], _, r, h => absurd h (List.not_mem_nil r)
  | t :: rest, n, r, h => by
    rw [rolloverLoop] at h
    by_cases h1 : existingIds.contains t.id = true
    · rw [if_pos h1] at h
      obtain ⟨hd, hc, hs, t2, ht2, hprops⟩ := rolloverLoop_rows d plans existingIds rest n r h
      exact ⟨hd, hc, hs, t2, List.mem_cons_of_mem t ht2, hprops⟩
    · rw [if_neg h1] at h
      by_cases h2 : planDisabled (planFor plans t.id) = true
      · rw [if_pos h2] at h
        obtain ⟨hd, hc, hs, t2, ht2, hprops⟩ := rolloverLoop_rows d plans existingIds rest n r h
        exact ⟨hd, hc, hs, t2, List.mem_cons_of_mem t ht2, hprops⟩
      · rw [if_neg h2] at h
        rcases hrec : rolloverLoop d plans existingIds rest (n + 1) with ⟨c, rows, n2⟩
        rw [hrec] at h
        dsimp only at h
        rcases List.mem_cons.mp h with rfl | hm
        · exact ⟨rfl, rfl, rfl, t, List.mem_cons_self t rest, rfl,
            by simpa using h1, by simpa using h2⟩
        · have hm2 : r ∈ (rolloverLoop d plans existingIds rest (n + 1)).2.1 := by
            rw [hrec]
            exact hm
          obtain ⟨hd, hc, hs, t2, ht2, hprops⟩ :=
            rolloverLoop_rows d plans existingIds rest (n + 1) r hm2
          exact ⟨hd, hc, hs, t2, List.mem_cons_of_mem t ht2, hprops⟩

lemma rolloverLoop_covers (d : Int) (plans : List PollPlanRow) (existingIds : List String) :
    ∀ (ts : List PollTemplateRow) (n : Nat) (t : PollTemplateRow), t ∈ ts →
      existingIds.contains t.id = false → planDisabled (planFor plans t.id) = false →
      ∃ r ∈ (rolloverLoop d plans existingIds ts n).2.1, r.templateId = t.id ∧ r.pollDate = d
  | [], _, t, ht, _, _ => absurd ht (List.not_mem_nil t)
  | t0 :: rest, n, t, ht, hc, hp => by
    rw [rolloverLoop]
    rcases List.mem_cons.mp ht with rfl | hm
    · rw [if_neg (by rw [hc]; exact Bool.false_ne_true),
        if_neg (by rw [hp]; exact Bool.false_ne_true)]
      rcases hrec : rolloverLoop d plans existingIds rest (n + 1) with ⟨c, rows, n2⟩
      dsimp only
      exact ⟨newInstanceRow t (planFor plans t.id) d n, List.mem_cons_self _ _, rfl, rfl⟩
    · by_cases h1 : existingIds.contains t0.id = true
      · rw [if_pos h1]
        exact rolloverLoop_covers d plans existingIds rest n t hm hc hp
      · rw [if_neg h1]
        by_cases h2 : planDisabled (planFor plans t0.id) = true
        · rw [if_pos h2]
          exact rolloverLoop_covers d plans existingIds rest n t hm hc hp
        · rw [if_neg h2]
          rcases hrec : rolloverLoop d plans existingIds rest (n + 1) with ⟨c, rows, n2⟩
          dsimp only
          obtain ⟨r, hr, hprops⟩ := rolloverLoop_covers d plans existingIds rest (n + 1) t hm hc hp
          rw [hrec] at hr
          exact ⟨r, List.mem_cons_of_mem _ hr, hprops⟩

lemma rolloverLoop_all_skip (d : Int) (plans : List PollPlanRow) (existingIds : List String) :
    ∀ (ts : List PollTemplateRow) (n : Nat),
      (∀ t ∈ ts, existingIds.contains t.id = true ∨ planDisabled (planFor plans t.id) = true) →
      rolloverLoop d plans existingIds ts n = (0, [], n)
  | [], _, _ => rfl
  | t :: rest, n, h => by
    rw [rolloverLoop]
    have hrest := rolloverLoop_all_skip d plans existingIds rest n
      (fun t2 ht2 => h t2 (List.mem_cons_of_mem t ht2))
    rcases h t (List.mem_cons_self t rest) with h1 | h1
    · rw [if_pos h1]
      exact hrest
    · by_cases h2 : existingIds.contains t.id = true
      · rw [if_pos h2]
        exact hrest
      · rw [if_neg h2, if_pos h1]
        exact hrest

lemma ensure_shape (db : RolloverDb) (d : Int) :
    (ensureInstancesForDate db d).2.templates = db.templates ∧
    (ensureInstancesForDate db d).2.plans = db.plans ∧
    ∃ rows, (ensureInstancesForDate db d).2.instances = db.instances ++ rows ∧
      ∀ r ∈ rows, r.pollDate = d ∧ r.closeDate = none ∧ r.status = "OPEN" ∧
        ∃ t ∈ activeTemplates db, r.templateId = t.id ∧
          (existingTemplateIdsAt db d).contains t.id = false ∧
          planDisabled (planFor (plansForDate db d) t.id) = false := by
  unfold ensureInstancesForDate
  split
  · exact ⟨rfl, rfl, [], by simp, by simp⟩
  · rcases hrec : rolloverLoop d (plansForDate db d) (existingTemplateIdsAt db d)
        (activeTemplates db) db.nextId with ⟨c, rows, n2⟩
    refine ⟨rfl, rfl, rows, rfl, ?_⟩
    intro r hr
    have hr2 : r ∈ (rolloverLoop d (plansForDate db d) (existingTemplateIdsAt db d)
        (activeTemplates db) db.nextId).2.1 := by
      rw [hrec]
      exact hr
    exact rolloverLoop_rows d _ _ _ _ r hr2

lemma ensure_covers (db : RolloverDb) (d : Int) (t : PollTemplateRow)
    (ht : t ∈ activeTemplates db)
    (hex : (existingTemplateIdsAt db d).contains t.id = false)
    (hpd : planDisabled (planFor (plansForDate db d) t.id) = false) :
    ∃ r ∈ (ensureInstancesForDate db d).2.instances, r.templateId = t.id ∧ r.pollDate = d := by
  unfold ensureInstancesForDate
  split
  · rename_i hempty
    rw [List.isEmpty_iff.mp hempty] at ht
    exact absurd ht (List.not_mem_nil t)
  · rcases hrec : rolloverLoop d (plansForDate db d) (existingTemplateIdsAt db d)
        (activeTemplates db) db.nextId with ⟨c, rows, n2⟩
    obtain ⟨r, hr, hprops⟩ := rolloverLoop_covers d (plansForDate db d)
      (existingTemplateIdsAt db d) (activeTemplates db) db.nextId t ht hex hpd
    rw [hrec] at hr
    exact ⟨r, List.mem_append_right _ hr, hprops⟩

/-- C7: `ensureInstancesForDate` is idempotent (template ids are primary
keys, hence duplicate-free): the second run returns `createdCount = 0` and
leaves the store unchanged, and a template that already has an instance for
the date, or whose plan for the date is disabled, gets no new instance. -/
theorem C7_rollover_idempotent (db : RolloverDb) (d : Int)
    (hnd : (db.templates.map (fun t => t.id)).Nodup) :
    (ensureInstancesForDate (ensureInstancesForDate db d).2 d).1 = 0 ∧
    (ensureInstancesForDate (ensureInstancesForDate db d).2 d).2
      = (ensureInstancesForDate db d).2 ∧
    (∀ t ∈ activeTemplates db,
      ((existingTemplateIdsAt db d).contains t.id = true
        ∨ planDisabled (planFor (plansForDate db d) t.id) = true) →
      ∀ r ∈ (ensureInstancesForDate db d).2.instances,
        r ∉ db.instances → r.templateId ≠ t.id) := by
  obtain ⟨hT, hP, rows, hI, hrows⟩ := ensure_shape db d
  have hAct : activeTemplates (ensureInstancesForDate db d).2 = activeTemplates db := by
    unfold activeTemplates
    rw [hT]
  have hActIds : activeTemplateIds (ensureInstancesForDate db d).2 = activeTemplateIds db := by
    unfold activeTemplateIds
    rw [hAct]
  have hPlans : plansForDate (ensureInstancesForDate db d).2 d = plansForDate db d := by
    unfold plansForDate
    rw [hP, hActIds]
  have hskip : ∀ t ∈ activeTemplates (ensureInstancesForDate db d).2,
      (existingTemplateIdsAt (ensureInstancesForDate db d).2 d).contains t.id = true
      ∨ planDisabled (planFor (plansForDate (ensureInstancesForDate db d).2 d) t.id)
          = true := by
    rw [hAct, hPlans]
    intro t ht
    by_cases hex : (existingTemplateIdsAt db d).contains t.id = true
    · left
      have hmem : t.id ∈ existingTemplateIdsAt db d := List.mem_of_elem_eq_true hex
      rcases List.mem_map.mp hmem with ⟨i, hi, hit⟩
      rcases List.mem_filter.mp hi with ⟨him, hip⟩
      apply List.elem_eq_true_of_mem
      unfold existingTemplateIdsAt
      refine List.mem_map.mpr ⟨i, List.mem_filter.mpr ⟨?_, ?_⟩, hit⟩
      · rw [hI]
        exact List.mem_append_left _ him
      · rw [hActIds]
        exact hip
    · by_cases hpd : planDisabled (planFor (plansForDate db d) t.id) = true
      · right
        exact hpd
      · left
        obtain ⟨r, hr, hrid, hrd⟩ := ensure_covers db d t ht (by simpa using hex)
          (by simpa using hpd)
        apply List.elem_eq_true_of_mem
        unfold existingTemplateIdsAt
        refine List.mem_map.mpr ⟨r, List.mem_filter.mpr ⟨hr, ?_⟩, hrid⟩
        simp only [Bool.and_eq_true, beq_iff_eq]
        constructor
        · apply List.elem_eq_true_of_mem
          rw [hActIds, hrid]
          exact List.mem_map.mpr ⟨t, ht, rfl⟩
        · exact hrd
  have hrun2 : ensureInstancesForDate (ensureInstancesForDate db d).2 d
      = (0, (ensureInstancesForDate db d).2) := by
    set s1 := (ensureInstancesForDate db d).2 with hs1
    unfold ensureInstancesForDate
    by_cases hempty : (activeTemplates s1).isEmpty = true
    · rw [if_pos hempty]
    · rw [if_neg hempty, rolloverLoop_all_skip d _ _ (activeTemplates s1) s1.nextId hskip]
      simp
  refine ⟨by rw [hrun2], by rw [hrun2], ?_⟩
  · intro t ht hskipt r hr hnew
    rw [hI] at hr
    rcases List.mem_append.mp hr with h | h
    · exact absurd h hnew
    · obtain ⟨_, _, _, t2, ht2, hid2, hex2, hpd2⟩ := hrows r h
      intro hidt
      have htmem : t ∈ db.templates := (List.mem_filter.mp ht).1
      have ht2mem : t2 ∈ db.templates := (List.mem_filter.mp ht2).1
      have : t2 = t := List.inj_on_of_nodup_map hnd ht2mem htmem (by rw [← hid2, hidt])
      rw [this] at hex2 hpd2
      rcases hskipt with hs | hs
      · rw [hex2] at hs
        cases hs
      · rw [hpd2] at hs
        cases hs

/-- Witness for C7 at a store exercising all three paths (fresh template,
template with an existing instance, template with a disabled plan). -/
theorem C7_rollover_idempotent_witness :
    (ensureInstancesForDate (ensureInstancesForDate c7Db 7).2 7).1 = 0 ∧
    (ensureInstancesForDate (ensureInstancesForDate c7Db 7).2 7).2
      = (ensureInstancesForDate c7Db 7).2 :=
  ⟨(C7_rollover_idempotent c7Db 7 (by decide)).1,
   (C7_rollover_idempotent c7Db 7 (by decide)).2.1⟩

/-- C8 (code bug): every instance created by `ensureInstancesForDate`
carries NO close date at all: `rollover.py` (lines 85-96) sets only the
open date `pollDate`, `models.py` maps neither a `closeDate` column on
`PollInstance` nor a `durationDays` column on `PollTemplate`, and no code
path computes open date + duration.  Concretely, a single active template
yields exactly one created instance whose `closeDate` is `none`. -/
theorem C8_created_instances_lack_close_date :
    (∀ (db : RolloverDb) (d : Int) (r : InstanceTableRow),
      r ∈ (ensureInstancesForDate db d).2.instances →
      r ∉ db.instances → r.closeDate = none) ∧
    (ensureInstancesForDate c8Db 5).1 = 1 ∧
    (ensureInstancesForDate c8Db 5).2.instances.map (fun i => i.closeDate) = [none] := by
  refine ⟨?_, by decide, by decide⟩
  intro db d r hr hnew
  obtain ⟨_, _, rows, hI, hrows⟩ := ensure_shape db d
  rw [hI] at hr
  rcases List.mem_append.mp hr with h | h
  · exact absurd h hnew
  · exact (hrows r h).2.1

/-- Witness for C8: the instance created for template t1 on day 5 has no
close date. -/
theorem C8_created_instances_lack_close_date_witness :
    (⟨"inst-0", "t1", "c1", 5, none, "Title", some "Q?", "RANKED", none, "PUBLIC",
      "OPEN", [("Yes", 1), ("No", 2)]⟩ : InstanceTableRow).closeDate = none :=
  C8_created_instances_lack_close_date.1 c8Db 5 _ (by decide) (by decide)

/-- C9 counterexample: the current schema is NOT "no uniqueness constraint on
(templateId, pollDate), only a non-unique index" — migration `126b12d82727`
dropped the non-unique index and restored the unique constraint. -/
theorem C9_counterexample :
    ¬ (("uq_pollInstances_template_date", ["templateId", "pollDate"])
          ∉ currentInstanceSchema.uniques
        ∧ ∃ ix ∈ currentInstanceSchema.indexes,
            ix.2.1 = ["templateId", "pollDate"] ∧ ix.2.2 = false) := by
  decide

/-- C9 (amended): the persistent data model DOES enforce uniqueness of
(templateId, pollDate) on instances: the unique constraint is declared in
the ORM model and restored by the final migration, and no
(templateId, pollDate) index — unique or not — remains. -/
theorem C9_unique_constraint_restored :
    ("uq_pollInstances_template_date", ["templateId", "pollDate"])
        ∈ currentInstanceSchema.uniques
      ∧ (∀ ix ∈ currentInstanceSchema.indexes, ix.2.1 ≠ ["templateId", "pollDate"])
      ∧ ("uq_pollInstances_template_date", ["templateId", "pollDate"])
        ∈ initialInstanceSchema.uniques := by
  decide

end AllThing

